import Mathlib

/-!
Verification of the credit-note ledger implemented in `main.py`.

The ledger state is a shallow embedding of the five SQLAlchemy tables that the
mutation endpoints touch (sections, credit notes, commitments, reversals,
returns).  Monetary amounts, stored as Python floats in the source, are
embedded as exact rationals: every comparison and update in the endpoints is
plain real arithmetic, which `ℚ` reproduces faithfully; binary-float rounding
drift is the separate latent issue already flagged by the repository's own
design notes and is not modelled.  Dates are embedded as integers (only their
order could matter, and the code never compares them).

Each endpoint becomes a function `DBState → request → DBState × Option ApiError`
which mirrors the Python handler line by line: the same checks in the same
order, the same in-place mutations of the row found by the query, and the
same 0.01-epsilon clamps.  The `IntegrityError` branches of the handlers
(`db.commit()` inside `try/except`, rolled back on failure) are modelled by
checking exactly the database constraints the touched row can violate —
uniqueness of `numero_nc` / `numero_ne` and the foreign key into `secoes` —
and returning the original state with the endpoint's catch-all error when one
fails, which is the observable behaviour of the rollback.
-/

/-- Row of `notas_credito` (class `NotaCredito`, main.py lines 85–104). -/
structure NotaCredito where
  id : Nat
  numero_nc : String
  valor : ℚ
  esfera : String
  fonte : String
  ptres : String
  plano_interno : String
  nd : String
  data_chegada : Int
  prazo_empenho : Int
  descricao : Option String
  secao_responsavel_id : Nat
  saldo_disponivel : ℚ
  status : String
  deriving DecidableEq

/-- Row of `empenhos` (class `Empenho`, main.py lines 106–120). -/
structure Empenho where
  id : Nat
  numero_ne : String
  valor : ℚ
  data_empenho : Int
  observacao : Option String
  status : Option String
  is_fake : Bool
  nota_credito_id : Nat
  secao_requisitante_id : Nat
  deriving DecidableEq

/-- Row of `anulacoes_empenho` (class `AnulacaoEmpenho`, main.py lines 122–130). -/
structure AnulacaoEmpenho where
  id : Nat
  empenho_id : Nat
  valor : ℚ
  data : Int
  observacao : Option String
  deriving DecidableEq

/-- Row of `recolhimentos_saldo` (class `RecolhimentoSaldo`, main.py lines 132–140). -/
structure RecolhimentoSaldo where
  id : Nat
  nota_credito_id : Nat
  valor : ℚ
  data : Int
  observacao : Option String
  deriving DecidableEq

/-- Payload `NotaCreditoCreate` (main.py lines 195–209).  The pydantic
constraint `valor > 0` is checked by the operations below before the handler
body runs, as FastAPI does. -/
structure NotaCreditoCreate where
  numero_nc : String
  valor : ℚ
  esfera : String
  fonte : String
  ptres : String
  plano_interno : String
  nd : String
  data_chegada : Int
  prazo_empenho : Int
  descricao : Option String
  secao_responsavel_id : Nat
  deriving DecidableEq

/-- Payload `EmpenhoCreate` (main.py lines 219–229); pydantic requires `valor ≥ 0`. -/
structure EmpenhoCreate where
  numero_ne : String
  valor : ℚ
  data_empenho : Int
  observacao : Option String
  nota_credito_id : Nat
  secao_requisitante_id : Nat
  is_fake : Bool
  deriving DecidableEq

/-- Payload `AnulacaoEmpenhoBase` (main.py lines 239–243); pydantic requires `valor > 0`. -/
structure AnulacaoEmpenhoBase where
  empenho_id : Nat
  valor : ℚ
  data : Int
  observacao : Option String
  deriving DecidableEq

/-- Payload `RecolhimentoSaldoBase` (main.py lines 250–254); pydantic requires `valor > 0`. -/
structure RecolhimentoSaldoBase where
  nota_credito_id : Nat
  valor : ℚ
  data : Int
  observacao : Option String
  deriving DecidableEq

/-- The mutable database state seen by the ledger endpoints.  Sections are
kept as their ids (the only attribute the ledger consults).  `nextId` models
the autoincrement primary-key source shared by the tables. -/
structure DBState where
  secoes : List Nat
  notas : List NotaCredito
  empenhos : List Empenho
  anulacoes : List AnulacaoEmpenho
  recolhimentos : List RecolhimentoSaldo
  nextId : Nat
  deriving DecidableEq

/-- One constructor per distinct rejection site of the ledger endpoints.
`integrityNc` / `integrityNe` are the `except IntegrityError` branches. -/
inductive ApiError where
  | invalidPayload
  | secaoNotFound
  | ncNotFound
  | empenhoNotFound
  | ncNotAtiva
  | saldoInsuficiente
  | anulacaoExcedeEmpenho
  | valorMenorQueEmpenhado
  | empenhoTemAnulacoes
  | ncTemEmpenhos
  | integrityNc
  | integrityNe
  deriving DecidableEq

/-- `db.query(NotaCredito).filter(NotaCredito.id == i).first()`. -/
def findNota (s : DBState) (i : Nat) : Option NotaCredito :=
  s.notas.find? (fun n => n.id == i)

/-- `db.query(Empenho).filter(Empenho.id == i).first()`. -/
def findEmpenho (s : DBState) (i : Nat) : Option Empenho :=
  s.empenhos.find? (fun e => e.id == i)

/-- The row inserted by `create_nota_credito` (main.py line 499):
`NotaCredito(**nc_in.dict(), saldo_disponivel=nc_in.valor, status="Ativa")`. -/
def mkNota (r : NotaCreditoCreate) (i : Nat) : NotaCredito :=
  { id := i, numero_nc := r.numero_nc, valor := r.valor, esfera := r.esfera,
    fonte := r.fonte, ptres := r.ptres, plano_interno := r.plano_interno, nd := r.nd,
    data_chegada := r.data_chegada, prazo_empenho := r.prazo_empenho,
    descricao := r.descricao, secao_responsavel_id := r.secao_responsavel_id,
    saldo_disponivel := r.valor, status := "Ativa" }

/-- The row inserted by `create_empenho` (main.py line 588):
`Empenho(**empenho_in.dict())`, with `status` left at its NULL default. -/
def mkEmpenho (r : EmpenhoCreate) (i : Nat) : Empenho :=
  { id := i, numero_ne := r.numero_ne, valor := r.valor, data_empenho := r.data_empenho,
    observacao := r.observacao, status := none, is_fake := r.is_fake,
    nota_credito_id := r.nota_credito_id, secao_requisitante_id := r.secao_requisitante_id }

/-- `POST /notas-credito` — `create_nota_credito` (main.py lines 494–507). -/
def create_nota_credito (s : DBState) (r : NotaCreditoCreate) : DBState × Option ApiError :=
  if ¬ 0 < r.valor then (s, some .invalidPayload)
  else if r.secao_responsavel_id ∉ s.secoes then (s, some .secaoNotFound)
  else if ∃ n ∈ s.notas, n.numero_nc = r.numero_nc then (s, some .integrityNc)
  else ({ s with notas := mkNota r s.nextId :: s.notas, nextId := s.nextId + 1 }, none)

/-- The `for key, value in nc_update.dict().items(): setattr(db_nc, key, value)`
loop of `update_nota_credito` (main.py lines 550–552) followed by the
`saldo_disponivel` overwrite: every payload field is copied onto the row,
the balance is set to `novo`, and `status` is left untouched. -/
def setNotaFields (r : NotaCreditoCreate) (novo : ℚ) (n : NotaCredito) : NotaCredito :=
  { n with
    numero_nc := r.numero_nc
    valor := r.valor
    esfera := r.esfera
    fonte := r.fonte
    ptres := r.ptres
    plano_interno := r.plano_interno
    nd := r.nd
    data_chegada := r.data_chegada
    prazo_empenho := r.prazo_empenho
    descricao := r.descricao
    secao_responsavel_id := r.secao_responsavel_id
    saldo_disponivel := novo }

/-- `PUT` on one credit note — `update_nota_credito` (main.py lines 541–560). -/
def update_nota_credito (s : DBState) (nc_id : Nat) (r : NotaCreditoCreate) :
    DBState × Option ApiError :=
  if ¬ 0 < r.valor then (s, some .invalidPayload)
  else
    match findNota s nc_id with
    | none => (s, some .ncNotFound)
    | some nc =>
      let valor_ja_empenhado := nc.valor - nc.saldo_disponivel
      let novo_saldo := r.valor - valor_ja_empenhado
      if novo_saldo < -(1/100) then (s, some .valorMenorQueEmpenhado)
      else if (∀ n ∈ s.notas, n.id = nc_id ∨ ¬ n.numero_nc = r.numero_nc) ∧
          r.secao_responsavel_id ∈ s.secoes then
        ({ s with notas := s.notas.map (fun n =>
            if n.id = nc_id then setNotaFields r novo_saldo n else n) }, none)
      else (s, some .integrityNc)

/-- `DELETE` on one credit note — `delete_nota_credito` (main.py lines 562–573).
Deleting the row cascades to its `recolhimentos` (relationship `cascade`). -/
def delete_nota_credito (s : DBState) (nc_id : Nat) : DBState × Option ApiError :=
  match findNota s nc_id with
  | none => (s, some .ncNotFound)
  | some _ =>
    if ∃ e ∈ s.empenhos, e.nota_credito_id = nc_id then (s, some .ncTemEmpenhos)
    else
      ({ s with
          notas := s.notas.filter (fun n => n.id != nc_id)
          recolhimentos := s.recolhimentos.filter (fun rc => rc.nota_credito_id != nc_id) },
        none)

/-- `POST /empenhos` — `create_empenho` (main.py lines 577–612). -/
def create_empenho (s : DBState) (r : EmpenhoCreate) : DBState × Option ApiError :=
  if ¬ 0 ≤ r.valor then (s, some .invalidPayload)
  else
    match findNota s r.nota_credito_id with
    | none => (s, some .ncNotFound)
    | some nc =>
      if ¬ nc.status = "Ativa" then (s, some .ncNotAtiva)
      else if nc.saldo_disponivel < r.valor then (s, some .saldoInsuficiente)
      else if (∀ e ∈ s.empenhos, ¬ e.numero_ne = r.numero_ne) ∧
          r.secao_requisitante_id ∈ s.secoes then
        let novo := nc.saldo_disponivel - r.valor
        ({ s with
            empenhos := mkEmpenho r s.nextId :: s.empenhos
            notas := s.notas.map (fun n =>
              if n.id = r.nota_credito_id then
                if novo < 1/100 then
                  { n with saldo_disponivel := 0, status := "Totalmente Empenhada" }
                else { n with saldo_disponivel := novo }
              else n)
            nextId := s.nextId + 1 }, none)
      else (s, some .integrityNe)

/-- `DELETE` on one commitment — `delete_empenho` (main.py lines 630–647).
The credit of `db_empenho.valor` and the status flip happen only `if db_nc:`;
deleting the row cascades to its `anulacoes` (none exist past the guard). -/
def delete_empenho (s : DBState) (empenho_id : Nat) : DBState × Option ApiError :=
  match findEmpenho s empenho_id with
  | none => (s, some .empenhoNotFound)
  | some e =>
    if ∃ a ∈ s.anulacoes, a.empenho_id = empenho_id then (s, some .empenhoTemAnulacoes)
    else
      ({ s with
          notas := s.notas.map (fun n =>
            if n.id = e.nota_credito_id then
              { n with
                saldo_disponivel := n.saldo_disponivel + e.valor
                status := if n.status = "Totalmente Empenhada" then "Ativa" else n.status }
            else n)
          empenhos := s.empenhos.filter (fun e2 => e2.id != empenho_id)
          anulacoes := s.anulacoes.filter (fun a => a.empenho_id != empenho_id) }, none)

/-- `POST /anulacoes-empenho` — `create_anulacao` (main.py lines 651–678).
The admissibility check compares against the stored running `db_empenho.valor`;
the note is credited `if db_nc:`; the commitment value is decremented and
clamped to 0 below 0.01 with the total/partial status annotation. -/
def create_anulacao (s : DBState) (r : AnulacaoEmpenhoBase) : DBState × Option ApiError :=
  if ¬ 0 < r.valor then (s, some .invalidPayload)
  else
    match findEmpenho s r.empenho_id with
    | none => (s, some .empenhoNotFound)
    | some e =>
      if e.valor < r.valor then (s, some .anulacaoExcedeEmpenho)
      else
        let novoValor := e.valor - r.valor
        ({ s with
            notas := s.notas.map (fun n =>
              if n.id = e.nota_credito_id then
                { n with
                  saldo_disponivel := n.saldo_disponivel + r.valor
                  status := if n.status = "Totalmente Empenhada" then "Ativa" else n.status }
              else n)
            empenhos := s.empenhos.map (fun e2 =>
              if e2.id = r.empenho_id then
                if novoValor < 1/100 then
                  { e2 with valor := 0, status := some "Anulação Total Realizada" }
                else { e2 with valor := novoValor, status := some "Anulação Parcial Realizada" }
              else e2)
            anulacoes := { id := s.nextId
                           empenho_id := r.empenho_id
                           valor := r.valor
                           data := r.data
                           observacao := r.observacao } :: s.anulacoes
            nextId := s.nextId + 1 }, none)

/-- `POST /recolhimentos-saldo` — `create_recolhimento` (main.py lines 680–696). -/
def create_recolhimento (s : DBState) (r : RecolhimentoSaldoBase) : DBState × Option ApiError :=
  if ¬ 0 < r.valor then (s, some .invalidPayload)
  else
    match findNota s r.nota_credito_id with
    | none => (s, some .ncNotFound)
    | some nc =>
      if nc.saldo_disponivel < r.valor then (s, some .saldoInsuficiente)
      else
        let novo := nc.saldo_disponivel - r.valor
        ({ s with
            notas := s.notas.map (fun n =>
              if n.id = r.nota_credito_id then
                if novo < 1/100 then
                  { n with saldo_disponivel := 0, status := "Totalmente Empenhada" }
                else { n with saldo_disponivel := novo }
              else n)
            recolhimentos := { id := s.nextId
                               nota_credito_id := r.nota_credito_id
                               valor := r.valor
                               data := r.data
                               observacao := r.observacao } :: s.recolhimentos
            nextId := s.nextId + 1 }, none)

/-- One ledger request, for reasoning about arbitrary operation sequences. -/
inductive Op where
  | createNc (r : NotaCreditoCreate)
  | updateNc (nc_id : Nat) (r : NotaCreditoCreate)
  | deleteNc (nc_id : Nat)
  | createEmp (r : EmpenhoCreate)
  | deleteEmp (empenho_id : Nat)
  | createAnul (r : AnulacaoEmpenhoBase)
  | createRecol (r : RecolhimentoSaldoBase)
  deriving DecidableEq

/-- Dispatch one request to its endpoint. -/
def Op.step (s : DBState) : Op → DBState × Option ApiError
  | .createNc r => create_nota_credito s r
  | .updateNc i r => update_nota_credito s i r
  | .deleteNc i => delete_nota_credito s i
  | .createEmp r => create_empenho s r
  | .deleteEmp i => delete_empenho s i
  | .createAnul r => create_anulacao s r
  | .createRecol r => create_recolhimento s r

/-- Execute a sequence of requests, keeping the state each one leaves behind
(rejected requests leave the state unchanged, as the rollback does). -/
def runOps : DBState → List Op → DBState
  | s, [] => s
  | s, op :: ops => runOps (op.step s).1 ops

/-- A fresh database holding only the given sections. -/
def initState (secs : List Nat) : DBState :=
  { secoes := secs, notas := [], empenhos := [], anulacoes := [], recolhimentos := [],
    nextId := 0 }

/-- Sum of the stored values of the commitments attached to note `i`. -/
def sumEmp : List Empenho → Nat → ℚ
  | [], _ => 0
  | e :: t, i => (if e.nota_credito_id = i then e.valor else 0) + sumEmp t i

/-- Sum of the values of the returns attached to note `i`. -/
def sumRec : List RecolhimentoSaldo → Nat → ℚ
  | [], _ => 0
  | rc :: t, i => (if rc.nota_credito_id = i then rc.valor else 0) + sumRec t i

/-- Sum of the values of the reversals recorded against commitment `i`. -/
def sumAnul : List AnulacaoEmpenho → Nat → ℚ
  | [], _ => 0
  | a :: t, i => (if a.empenho_id = i then a.valor else 0) + sumAnul t i

/-- The conservation equation of the spec for one credit note: original value
equals available balance plus net commitment values plus return values. -/
def conserved (s : DBState) (nc : NotaCredito) : Prop :=
  nc.valor = nc.saldo_disponivel + sumEmp s.empenhos nc.id + sumRec s.recolhimentos nc.id

instance (s : DBState) (nc : NotaCredito) : Decidable (conserved s nc) := by
  unfold conserved; infer_instance

/-- `q` is a whole number of cents. -/
def centMul (q : ℚ) : Prop := ∃ n : ℤ, q = n / 100

/-! ### Generic list bookkeeping lemmas

The endpoints mutate the row found by a query; in the embedding that is a
`map` applying the mutation to the row with the matching id, or a `filter`
dropping it.  The lemmas below relate those list operations to membership,
`find?` and the `sum` aggregates. -/

/-- Point-modifying a list leaves every projected id unchanged. -/
theorem upd_map_pid {α : Type} (pid : α → Nat) (g : α → α) (hg : ∀ a, pid (g a) = pid a)
    (x : Nat) (l : List α) :
    (l.map (fun a => if pid a = x then g a else a)).map pid = l.map pid := by
  induction l with
  | nil => rfl
  | cons a t ih =>
    by_cases h : pid a = x <;> simp [h, hg, ih]

/-- A point modification that fires nowhere is the identity. -/
theorem map_upd_of_forall_ne {α : Type} (pid : α → Nat) (g : α → α) (x : Nat) {l : List α}
    (h : ∀ a ∈ l, pid a ≠ x) : l.map (fun a => if pid a = x then g a else a) = l := by
  induction l with
  | nil => rfl
  | cons a t ih =>
    have ha := h a (List.mem_cons_self a t)
    simp only [List.map_cons, if_neg ha, List.cons.injEq, true_and]
    exact ih fun b hb => h b (List.mem_cons_of_mem a hb)

/-- Looking up the modified id after a point modification returns the
modified row. -/
theorem find?_map_upd {α : Type} (pid : α → Nat) (g : α → α) (hg : ∀ a, pid (g a) = pid a)
    (x : Nat) (l : List α) :
    (l.map (fun a => if pid a = x then g a else a)).find? (fun a => pid a == x)
      = (l.find? (fun a => pid a == x)).map g := by
  induction l with
  | nil => rfl
  | cons a t ih =>
    by_cases h : pid a = x
    · simp [List.find?, h, hg]
    · have hb : (pid a == x) = false := by simpa using h
      simp [List.find?, h, hb, ih]

/-- In a list with no duplicate ids, two members with the same id coincide. -/
theorem eq_of_pid_nodup {α : Type} (pid : α → Nat) {l : List α} (hnd : (l.map pid).Nodup)
    {a b : α} (ha : a ∈ l) (hb : b ∈ l) (hab : pid a = pid b) : a = b := by
  induction l with
  | nil => cases ha
  | cons c t ih =>
    rw [List.map_cons, List.nodup_cons] at hnd
    rcases List.mem_cons.mp ha with rfl | ha' <;> rcases List.mem_cons.mp hb with rfl | hb'
    · rfl
    · exact absurd (hab ▸ List.mem_map_of_mem pid hb') hnd.1
    · exact absurd (hab ▸ List.mem_map_of_mem pid ha') hnd.1
    · exact ih hnd.2 ha' hb'

/-- A successful note lookup returns a member row bearing the looked-up id. -/
theorem findNota_mem {s : DBState} {i : Nat} {nc : NotaCredito} (h : findNota s i = some nc) :
    nc ∈ s.notas ∧ nc.id = i := by
  unfold findNota at h
  refine ⟨List.mem_of_find?_eq_some h, ?_⟩
  simpa using List.find?_some h

/-- A successful commitment lookup returns a member row bearing the looked-up id. -/
theorem findEmpenho_mem {s : DBState} {i : Nat} {e : Empenho} (h : findEmpenho s i = some e) :
    e ∈ s.empenhos ∧ e.id = i := by
  unfold findEmpenho at h
  refine ⟨List.mem_of_find?_eq_some h, ?_⟩
  simpa using List.find?_some h

/-- Commitments of a note none of the rows reference sum to zero. -/
theorem sumEmp_eq_zero {l : List Empenho} {i : Nat} (h : ∀ e ∈ l, e.nota_credito_id ≠ i) :
    sumEmp l i = 0 := by
  induction l with
  | nil => rfl
  | cons e t ih =>
    rw [sumEmp, if_neg (h e (List.mem_cons_self e t)), ih fun b hb => h b (List.mem_cons_of_mem e hb)]
    ring

/-- Returns of a note none of the rows reference sum to zero. -/
theorem sumRec_eq_zero {l : List RecolhimentoSaldo} {i : Nat} (h : ∀ rc ∈ l, rc.nota_credito_id ≠ i) :
    sumRec l i = 0 := by
  induction l with
  | nil => rfl
  | cons rc t ih =>
    rw [sumRec, if_neg (h rc (List.mem_cons_self rc t)), ih fun b hb => h b (List.mem_cons_of_mem rc hb)]
    ring

/-- Effect of a point modification of commitment `x` on a note's commitment sum. -/
theorem sumEmp_map_upd (g : Empenho → Empenho)
    (hg : ∀ e, (g e).nota_credito_id = e.nota_credito_id)
    {l : List Empenho} (hnd : (l.map Empenho.id).Nodup) {e0 : Empenho} (he : e0 ∈ l)
    {x : Nat} (hx : e0.id = x) (i : Nat) :
    sumEmp (l.map (fun e => if e.id = x then g e else e)) i
      = sumEmp l i + (if e0.nota_credito_id = i then (g e0).valor - e0.valor else 0) := by
  induction l with
  | nil => cases he
  | cons a t ih =>
    rw [List.map_cons, List.nodup_cons] at hnd
    rcases List.mem_cons.mp he with rfl | he'
    · have ht : ∀ b ∈ t, b.id ≠ x := by
        intro b hb hbx
        exact hnd.1 (hx ▸ hbx ▸ List.mem_map_of_mem Empenho.id hb)
      rw [List.map_cons, if_pos hx, map_upd_of_forall_ne Empenho.id g x ht,
        sumEmp, sumEmp, hg]
      by_cases hi : e0.nota_credito_id = i <;> (simp [hi]; try ring)
    · have hax : a.id ≠ x := by
        intro hax
        exact hnd.1 (hax ▸ hx ▸ List.mem_map_of_mem Empenho.id he')
      rw [List.map_cons, if_neg hax, sumEmp, sumEmp, ih hnd.2 he']
      ring

/-- Effect of deleting commitment `x` on a note's commitment sum. -/
theorem sumEmp_filter {l : List Empenho} (hnd : (l.map Empenho.id).Nodup) {e0 : Empenho}
    (he : e0 ∈ l) {x : Nat} (hx : e0.id = x) (i : Nat) :
    sumEmp (l.filter (fun e => e.id != x)) i
      = sumEmp l i - (if e0.nota_credito_id = i then e0.valor else 0) := by
  induction l with
  | nil => cases he
  | cons a t ih =>
    rw [List.map_cons, List.nodup_cons] at hnd
    rcases List.mem_cons.mp he with rfl | he'
    · have ht : ∀ b ∈ t, b.id ≠ x := by
        intro b hb hbx
        exact hnd.1 (hx ▸ hbx ▸ List.mem_map_of_mem Empenho.id hb)
      have : t.filter (fun e => e.id != x) = t := by
        apply List.filter_eq_self.mpr
        intro b hb
        simpa using ht b hb
      rw [List.filter_cons, if_neg (by simpa using hx), this, sumEmp]
      ring
    · have hax : a.id ≠ x := by
        intro hax
        exact hnd.1 (hax ▸ hx ▸ List.mem_map_of_mem Empenho.id he')
      rw [List.filter_cons, if_pos (by simpa using hax), sumEmp, sumEmp, ih hnd.2 he']
      ring

/-- Deleting the returns of note `d` does not change another note's return sum. -/
theorem sumRec_filter_ne (l : List RecolhimentoSaldo) {d i : Nat} (h : i ≠ d) :
    sumRec (l.filter (fun rc => rc.nota_credito_id != d)) i = sumRec l i := by
  induction l with
  | nil => rfl
  | cons rc t ih =>
    by_cases hrc : rc.nota_credito_id = d
    · have hni : ¬ rc.nota_credito_id = i := by
        intro hi
        rw [hi] at hrc
        exact h hrc
      rw [List.filter_cons, if_neg (by simpa using hrc), ih, sumRec, if_neg hni, zero_add]
    · rw [List.filter_cons, if_pos (by simpa using hrc), sumRec, sumRec, ih]

/-! ### Whole-cent amounts -/

theorem centMul_add {a b : ℚ} (ha : centMul a) (hb : centMul b) : centMul (a + b) := by
  obtain ⟨m, rfl⟩ := ha
  obtain ⟨n, rfl⟩ := hb
  exact ⟨m + n, by push_cast; ring⟩

theorem centMul_sub {a b : ℚ} (ha : centMul a) (hb : centMul b) : centMul (a - b) := by
  obtain ⟨m, rfl⟩ := ha
  obtain ⟨n, rfl⟩ := hb
  exact ⟨m - n, by push_cast; ring⟩

theorem centMul_zero : centMul 0 := ⟨0, by norm_num⟩

/-- A whole-cent amount in the clamp window `[0, 0.01)` is exactly zero: on
whole-cent data the epsilon clamps of the endpoints are inert. -/
theorem centMul_eq_zero {q : ℚ} (h : centMul q) (h0 : 0 ≤ q) (h1 : q < 1/100) : q = 0 := by
  obtain ⟨n, rfl⟩ := h
  have h100 : (0:ℚ) < 100 := by norm_num
  have hlt : (n:ℚ) < 1 := by
    rw [div_lt_div_iff₀ h100 h100] at h1
    linarith
  have hge : (0:ℚ) ≤ (n:ℚ) := by
    by_contra hneg
    push_neg at hneg
    have : (n:ℚ)/100 < 0 := div_neg_of_neg_of_pos hneg h100
    linarith
  have h1' : n < 1 := by exact_mod_cast hlt
  have h0' : 0 ≤ n := by exact_mod_cast hge
  have : n = 0 := by omega
  rw [this]
  norm_num

/-! ### Non-negativity invariant

What the code actually maintains: every balance stays at or above `-0.01`
(the update endpoint's rejection threshold), and every stored commitment
value stays non-negative. -/

/-- Balances at or above the `-0.01` update threshold, commitment values
non-negative. -/
def Nonneg (s : DBState) : Prop :=
  (∀ nc ∈ s.notas, -(1/100) ≤ nc.saldo_disponivel) ∧ (∀ e ∈ s.empenhos, 0 ≤ e.valor)

theorem nonneg_create_nota (s : DBState) (r : NotaCreditoCreate) (h : Nonneg s) :
    Nonneg (create_nota_credito s r).1 := by
  obtain ⟨hn, he⟩ := h
  simp only [create_nota_credito]
  split_ifs with h1 h2 h3
  all_goals try exact ⟨hn, he⟩
  refine ⟨?_, he⟩
  intro nc hnc
  rcases List.mem_cons.mp hnc with rfl | hnc'
  · simp only [mkNota]
    linarith
  · exact hn nc hnc'

theorem nonneg_update_nota (s : DBState) (nc_id : Nat) (r : NotaCreditoCreate) (h : Nonneg s) :
    Nonneg (update_nota_credito s nc_id r).1 := by
  obtain ⟨hn, he⟩ := h
  rcases hf : findNota s nc_id with _ | nc
  all_goals simp only [update_nota_credito, hf]
  all_goals split_ifs with h1 h2 h3
  all_goals try exact ⟨hn, he⟩
  refine ⟨?_, he⟩
  intro n' hn'
  rw [List.mem_map] at hn'
  obtain ⟨n, hmem, rfl⟩ := hn'
  by_cases hid : n.id = nc_id
  · simp only [if_pos hid, setNotaFields]
    linarith
  · simp only [if_neg hid]
    exact hn n hmem

theorem nonneg_delete_nota (s : DBState) (nc_id : Nat) (h : Nonneg s) :
    Nonneg (delete_nota_credito s nc_id).1 := by
  obtain ⟨hn, he⟩ := h
  rcases hf : findNota s nc_id with _ | nc
  all_goals simp only [delete_nota_credito, hf]
  all_goals try split_ifs with h1
  all_goals try exact ⟨hn, he⟩
  exact ⟨fun n hn' => hn n (List.mem_of_mem_filter hn'), he⟩

theorem nonneg_create_empenho (s : DBState) (r : EmpenhoCreate) (h : Nonneg s) :
    Nonneg (create_empenho s r).1 := by
  obtain ⟨hn, he⟩ := h
  rcases hf : findNota s r.nota_credito_id with _ | nc
  all_goals simp only [create_empenho, hf]
  all_goals split_ifs with h1 h2 h3 h4 h5
  all_goals try exact ⟨hn, he⟩
  all_goals refine ⟨?_, ?_⟩
  case _ =>
    intro n' hn'
    rw [List.mem_map] at hn'
    obtain ⟨n, hmem, rfl⟩ := hn'
    by_cases hid : n.id = r.nota_credito_id
    · simp only [if_pos hid]
      norm_num
    · simp only [if_neg hid]
      exact hn n hmem
  case _ =>
    intro e' he'
    rcases List.mem_cons.mp he' with rfl | he''
    · simpa [mkEmpenho] using h1
    · exact he e' he''
  case _ =>
    intro n' hn'
    rw [List.mem_map] at hn'
    obtain ⟨n, hmem, rfl⟩ := hn'
    by_cases hid : n.id = r.nota_credito_id
    · simp only [if_pos hid]
      linarith
    · simp only [if_neg hid]
      exact hn n hmem
  case _ =>
    intro e' he'
    rcases List.mem_cons.mp he' with rfl | he''
    · simpa [mkEmpenho] using h1
    · exact he e' he''

theorem nonneg_delete_empenho (s : DBState) (empenho_id : Nat) (h : Nonneg s) :
    Nonneg (delete_empenho s empenho_id).1 := by
  obtain ⟨hn, he⟩ := h
  rcases hf : findEmpenho s empenho_id with _ | e
  all_goals simp only [delete_empenho, hf]
  all_goals try split_ifs with h1
  all_goals try exact ⟨hn, he⟩
  have hev : 0 ≤ e.valor := he e (findEmpenho_mem hf).1
  constructor
  · intro n' hn'
    rw [List.mem_map] at hn'
    obtain ⟨n, hmem, rfl⟩ := hn'
    have hsal := hn n hmem
    by_cases hid : n.id = e.nota_credito_id
    · simp only [if_pos hid]
      linarith
    · simp only [if_neg hid]
      exact hsal
  · exact fun e' he' => he e' (List.mem_of_mem_filter he')

theorem nonneg_create_anulacao (s : DBState) (r : AnulacaoEmpenhoBase) (h : Nonneg s) :
    Nonneg (create_anulacao s r).1 := by
  obtain ⟨hn, he⟩ := h
  rcases hf : findEmpenho s r.empenho_id with _ | e
  all_goals simp only [create_anulacao, hf]
  all_goals split_ifs with h1 h2 h3
  all_goals try exact ⟨hn, he⟩
  all_goals refine ⟨?_, ?_⟩
  case _ =>
    intro n' hn'
    rw [List.mem_map] at hn'
    obtain ⟨n, hmem, rfl⟩ := hn'
    have hsal := hn n hmem
    by_cases hid : n.id = e.nota_credito_id
    · simp only [if_pos hid]
      linarith
    · simp only [if_neg hid]
      exact hsal
  case _ =>
    intro e' he'
    rw [List.mem_map] at he'
    obtain ⟨e2, hmem, rfl⟩ := he'
    by_cases hid : e2.id = r.empenho_id
    · simp only [if_pos hid]
      norm_num
    · simp only [if_neg hid]
      exact he e2 hmem
  case _ =>
    intro n' hn'
    rw [List.mem_map] at hn'
    obtain ⟨n, hmem, rfl⟩ := hn'
    have hsal := hn n hmem
    by_cases hid : n.id = e.nota_credito_id
    · simp only [if_pos hid]
      linarith
    · simp only [if_neg hid]
      exact hsal
  case _ =>
    intro e' he'
    rw [List.mem_map] at he'
    obtain ⟨e2, hmem, rfl⟩ := he'
    by_cases hid : e2.id = r.empenho_id
    · simp only [if_pos hid]
      linarith
    · simp only [if_neg hid]
      exact he e2 hmem

theorem nonneg_create_recolhimento (s : DBState) (r : RecolhimentoSaldoBase) (h : Nonneg s) :
    Nonneg (create_recolhimento s r).1 := by
  obtain ⟨hn, he⟩ := h
  rcases hf : findNota s r.nota_credito_id with _ | nc
  all_goals simp only [create_recolhimento, hf]
  all_goals split_ifs with h1 h2 h3
  all_goals try exact ⟨hn, he⟩
  all_goals refine ⟨?_, he⟩
  all_goals intro n' hn'
  all_goals rw [List.mem_map] at hn'
  case _ =>
    obtain ⟨n, hmem, rfl⟩ := hn'
    by_cases hid : n.id = r.nota_credito_id
    · simp only [if_pos hid]
      norm_num
    · simp only [if_neg hid]
      exact hn n hmem
  case _ =>
    obtain ⟨n, hmem, rfl⟩ := hn'
    by_cases hid : n.id = r.nota_credito_id
    · simp only [if_pos hid]
      linarith
    · simp only [if_neg hid]
      exact hn n hmem

theorem nonneg_step (s : DBState) (op : Op) (h : Nonneg s) : Nonneg (op.step s).1 := by
  cases op with
  | createNc r => exact nonneg_create_nota s r h
  | updateNc i r => exact nonneg_update_nota s i r h
  | deleteNc i => exact nonneg_delete_nota s i h
  | createEmp r => exact nonneg_create_empenho s r h
  | deleteEmp i => exact nonneg_delete_empenho s i h
  | createAnul r => exact nonneg_create_anulacao s r h
  | createRecol r => exact nonneg_create_recolhimento s r h

theorem nonneg_runOps (s : DBState) (ops : List Op) (h : Nonneg s) : Nonneg (runOps s ops) := by
  induction ops generalizing s with
  | nil => exact h
  | cons op ops ih => exact ih _ (nonneg_step s op h)

theorem nonneg_initState (secs : List Nat) : Nonneg (initState secs) := by
  constructor <;> intro x hx <;> cases hx

/-! ### Conservation invariant

On whole-cent data the epsilon clamps are inert (`centMul_eq_zero`) and the
ledger conserves value exactly.  `Inv` packages the conservation equation with
the bookkeeping facts (unique ids, foreign keys, id bounds, cent-multiples)
needed to push it through each endpoint. -/

/-- The monetary value carried by a request is a whole number of cents. -/
def Op.cent : Op → Prop
  | .createNc r => centMul r.valor
  | .updateNc _ r => centMul r.valor
  | .deleteNc _ => True
  | .createEmp r => centMul r.valor
  | .deleteEmp _ => True
  | .createAnul r => centMul r.valor
  | .createRecol r => centMul r.valor

/-- Invariant of reachable whole-cent ledger states. -/
structure LedgerInv (s : DBState) : Prop where
  notasNodup : (s.notas.map NotaCredito.id).Nodup
  empNodup : (s.empenhos.map Empenho.id).Nodup
  notasLt : ∀ nc ∈ s.notas, nc.id < s.nextId
  empLt : ∀ e ∈ s.empenhos, e.id < s.nextId
  fkEmp : ∀ e ∈ s.empenhos, ∃ nc ∈ s.notas, nc.id = e.nota_credito_id
  fkRec : ∀ rc ∈ s.recolhimentos, ∃ nc ∈ s.notas, nc.id = rc.nota_credito_id
  centValor : ∀ nc ∈ s.notas, centMul nc.valor
  centSaldo : ∀ nc ∈ s.notas, centMul nc.saldo_disponivel
  centEmp : ∀ e ∈ s.empenhos, centMul e.valor
  conservedAll : ∀ nc ∈ s.notas, conserved s nc

theorem inv_create_nota (s : DBState) (r : NotaCreditoCreate) (hc : centMul r.valor)
    (h : LedgerInv s) : LedgerInv (create_nota_credito s r).1 := by
  simp only [create_nota_credito]
  split_ifs with h1 h2 h3
  all_goals try exact h
  obtain ⟨nd1, nd2, lt1, lt2, fke, fkr, cv, cs, ce, hcons⟩ := h
  have hidnew : (mkNota r s.nextId).id = s.nextId := rfl
  have hfresh : ∀ e ∈ s.empenhos, e.nota_credito_id ≠ s.nextId := by
    intro e hee
    obtain ⟨nc, hnc, hid⟩ := fke e hee
    exact hid ▸ Nat.ne_of_lt (lt1 nc hnc)
  have hfreshr : ∀ rc ∈ s.recolhimentos, rc.nota_credito_id ≠ s.nextId := by
    intro rc hrc
    obtain ⟨nc, hnc, hid⟩ := fkr rc hrc
    exact hid ▸ Nat.ne_of_lt (lt1 nc hnc)
  refine ⟨?_, nd2, ?_, ?_, ?_, ?_, ?_, ?_, ce, ?_⟩
  · simp only [List.map_cons, hidnew]
    refine List.nodup_cons.mpr ⟨?_, nd1⟩
    intro hmem
    rw [List.mem_map] at hmem
    obtain ⟨nc, hnc, hid⟩ := hmem
    exact Nat.ne_of_lt (lt1 nc hnc) hid
  · intro nc hnc
    rcases List.mem_cons.mp hnc with rfl | hnc'
    · exact Nat.lt_succ_self s.nextId
    · exact Nat.lt_succ_of_lt (lt1 nc hnc')
  · exact fun e hee => Nat.lt_succ_of_lt (lt2 e hee)
  · intro e hee
    obtain ⟨nc, hnc, hid⟩ := fke e hee
    exact ⟨nc, List.mem_cons_of_mem _ hnc, hid⟩
  · intro rc hrc
    obtain ⟨nc, hnc, hid⟩ := fkr rc hrc
    exact ⟨nc, List.mem_cons_of_mem _ hnc, hid⟩
  · intro nc hnc
    rcases List.mem_cons.mp hnc with rfl | hnc'
    · exact hc
    · exact cv nc hnc'
  · intro nc hnc
    rcases List.mem_cons.mp hnc with rfl | hnc'
    · exact hc
    · exact cs nc hnc'
  · intro nc hnc
    rcases List.mem_cons.mp hnc with rfl | hnc'
    · show conserved _ (mkNota r s.nextId)
      unfold conserved
      simp only [mkNota]
      rw [sumEmp_eq_zero hfresh, sumRec_eq_zero hfreshr]
      ring
    · have := hcons nc hnc'
      unfold conserved at this ⊢
      simpa using this

theorem inv_update_nota (s : DBState) (nc_id : Nat) (r : NotaCreditoCreate)
    (hc : centMul r.valor) (h : LedgerInv s) : LedgerInv (update_nota_credito s nc_id r).1 := by
  rcases hf : findNota s nc_id with _ | nc
  all_goals simp only [update_nota_credito, hf]
  all_goals split_ifs with h1 h2 h3
  all_goals try exact h
  obtain ⟨nd1, nd2, lt1, lt2, fke, fkr, cv, cs, ce, hcons⟩ := h
  obtain ⟨hmemnc, hidnc⟩ := findNota_mem hf
  have hidpres : ∀ n : NotaCredito,
      (if n.id = nc_id then setNotaFields r (r.valor - (nc.valor - nc.saldo_disponivel)) n
        else n).id = n.id := by
    intro n
    by_cases hid : n.id = nc_id <;> simp [hid, setNotaFields]
  refine ⟨?_, nd2, ?_, lt2, ?_, ?_, ?_, ?_, ce, ?_⟩
  · rw [show (List.map NotaCredito.id (s.notas.map _)) = s.notas.map NotaCredito.id by
      rw [List.map_map]
      exact List.map_congr_left fun n _ => hidpres n]
    exact nd1
  · intro n' hn'
    rw [List.mem_map] at hn'
    obtain ⟨n, hmem, rfl⟩ := hn'
    rw [hidpres n]
    exact lt1 n hmem
  · intro e hee
    obtain ⟨n, hmem, hid⟩ := fke e hee
    exact ⟨_, List.mem_map_of_mem _ hmem, (hidpres n).trans hid⟩
  · intro rc hrc
    obtain ⟨n, hmem, hid⟩ := fkr rc hrc
    exact ⟨_, List.mem_map_of_mem _ hmem, (hidpres n).trans hid⟩
  · intro n' hn'
    rw [List.mem_map] at hn'
    obtain ⟨n, hmem, rfl⟩ := hn'
    by_cases hid : n.id = nc_id
    · simp only [if_pos hid, setNotaFields]
      exact hc
    · simp only [if_neg hid]
      exact cv n hmem
  · intro n' hn'
    rw [List.mem_map] at hn'
    obtain ⟨n, hmem, rfl⟩ := hn'
    by_cases hid : n.id = nc_id
    · simp only [if_pos hid, setNotaFields]
      exact centMul_sub hc (centMul_sub (cv nc hmemnc) (cs nc hmemnc))
    · simp only [if_neg hid]
      exact cs n hmem
  · intro n' hn'
    rw [List.mem_map] at hn'
    obtain ⟨n, hmem, rfl⟩ := hn'
    by_cases hid : n.id = nc_id
    · have hn_eq : n = nc := eq_of_pid_nodup NotaCredito.id nd1 hmem hmemnc (by rw [hid, hidnc])
      subst hn_eq
      have hold := hcons n hmem
      unfold conserved at hold ⊢
      simp only [if_pos hid, setNotaFields]
      linarith
    · have hold := hcons n hmem
      unfold conserved at hold ⊢
      simp only [if_neg hid]
      simpa using hold

theorem inv_delete_nota (s : DBState) (nc_id : Nat) (h : LedgerInv s) :
    LedgerInv (delete_nota_credito s nc_id).1 := by
  rcases hf : findNota s nc_id with _ | nc
  all_goals simp only [delete_nota_credito, hf]
  all_goals try split_ifs with h1
  all_goals try exact h
  obtain ⟨nd1, nd2, lt1, lt2, fke, fkr, cv, cs, ce, hcons⟩ := h
  push_neg at h1
  refine ⟨?_, nd2, ?_, lt2, ?_, ?_, ?_, ?_, ce, ?_⟩
  · exact nd1.sublist ((List.filter_sublist s.notas).map NotaCredito.id)
  · exact fun n hn => lt1 n (List.mem_of_mem_filter hn)
  · intro e hee
    obtain ⟨n, hmem, hid⟩ := fke e hee
    have hne : n.id ≠ nc_id := by
      rw [hid]
      exact h1 e hee
    refine ⟨n, List.mem_filter.mpr ⟨hmem, by simpa using hne⟩, hid⟩
  · intro rc hrc
    have hmem0 := List.mem_of_mem_filter hrc
    have hkeep : rc.nota_credito_id ≠ nc_id := by
      have := (List.mem_filter.mp hrc).2
      simpa using this
    obtain ⟨n, hmem, hid⟩ := fkr rc hmem0
    have hne : n.id ≠ nc_id := by
      rw [hid]
      exact hkeep
    exact ⟨n, List.mem_filter.mpr ⟨hmem, by simpa using hne⟩, hid⟩
  · exact fun n hn => cv n (List.mem_of_mem_filter hn)
  · exact fun n hn => cs n (List.mem_of_mem_filter hn)
  · intro n hn
    have hmem := List.mem_of_mem_filter hn
    have hne : n.id ≠ nc_id := by
      have := (List.mem_filter.mp hn).2
      simpa using this
    have hold := hcons n hmem
    unfold conserved at hold ⊢
    simp only
    rw [sumRec_filter_ne _ hne]
    exact hold

theorem inv_create_empenho (s : DBState) (r : EmpenhoCreate) (hc : centMul r.valor)
    (h : LedgerInv s) : LedgerInv (create_empenho s r).1 := by
  rcases hf : findNota s r.nota_credito_id with _ | nc
  all_goals simp only [create_empenho, hf]
  all_goals split_ifs with h1 h2 h3 h4 h5
  all_goals try exact h
  · -- clamp branch: the debited balance falls below 0.01 and is set to 0
    obtain ⟨nd1, nd2, lt1, lt2, fke, fkr, cv, cs, ce, hcons⟩ := h
    obtain ⟨hmemnc, hidnc⟩ := findNota_mem hf
    have hnovo0 : nc.saldo_disponivel - r.valor = 0 :=
      centMul_eq_zero (centMul_sub (cs nc hmemnc) hc) (by linarith) h5
    have hidpres : ∀ n : NotaCredito,
        (if n.id = r.nota_credito_id then
          { n with saldo_disponivel := 0, status := "Totalmente Empenhada" } else n).id = n.id := by
      intro n
      by_cases hid : n.id = r.nota_credito_id <;> simp [hid]
    refine ⟨?_, ?_, ?_, ?_, ?_, ?_, ?_, ?_, ?_, ?_⟩
    · rw [upd_map_pid NotaCredito.id
        (fun n => { n with saldo_disponivel := 0, status := "Totalmente Empenhada" })
        (fun _ => rfl) r.nota_credito_id s.notas]
      exact nd1
    · simp only [List.map_cons]
      refine List.nodup_cons.mpr ⟨?_, nd2⟩
      intro hmem
      rw [List.mem_map] at hmem
      obtain ⟨e, hee, hid⟩ := hmem
      exact Nat.ne_of_lt (lt2 e hee) hid
    · intro n' hn'
      rw [List.mem_map] at hn'
      obtain ⟨n, hmem, rfl⟩ := hn'
      rw [hidpres n]
      exact Nat.lt_succ_of_lt (lt1 n hmem)
    · intro e' he'
      rcases List.mem_cons.mp he' with rfl | he''
      · exact Nat.lt_succ_self s.nextId
      · exact Nat.lt_succ_of_lt (lt2 e' he'')
    · intro e' he'
      rcases List.mem_cons.mp he' with rfl | he''
      · exact ⟨_, List.mem_map_of_mem _ hmemnc, (hidpres nc).trans hidnc⟩
      · obtain ⟨n, hmem, hid⟩ := fke e' he''
        exact ⟨_, List.mem_map_of_mem _ hmem, (hidpres n).trans hid⟩
    · intro rc hrc
      obtain ⟨n, hmem, hid⟩ := fkr rc hrc
      exact ⟨_, List.mem_map_of_mem _ hmem, (hidpres n).trans hid⟩
    · intro n' hn'
      rw [List.mem_map] at hn'
      obtain ⟨n, hmem, rfl⟩ := hn'
      by_cases hid : n.id = r.nota_credito_id
      · simp only [if_pos hid]
        exact cv n hmem
      · simp only [if_neg hid]
        exact cv n hmem
    · intro n' hn'
      rw [List.mem_map] at hn'
      obtain ⟨n, hmem, rfl⟩ := hn'
      by_cases hid : n.id = r.nota_credito_id
      · simp only [if_pos hid]
        exact centMul_zero
      · simp only [if_neg hid]
        exact cs n hmem
    · intro e' he'
      rcases List.mem_cons.mp he' with rfl | he''
      · exact hc
      · exact ce e' he''
    · intro n' hn'
      rw [List.mem_map] at hn'
      obtain ⟨n, hmem, rfl⟩ := hn'
      have hold := hcons n hmem
      unfold conserved at hold ⊢
      by_cases hid : n.id = r.nota_credito_id
      · have hn_eq : n = nc := eq_of_pid_nodup NotaCredito.id nd1 hmem hmemnc (by rw [hid, hidnc])
        subst hn_eq
        simp only [if_pos hid, sumEmp, mkEmpenho]
        rw [if_pos hid.symm]
        linarith
      · simp only [if_neg hid, sumEmp, mkEmpenho]
        rw [if_neg fun hh => hid hh.symm]
        linarith
  · -- no clamp: balance stays at or above 0.01 after the debit
    obtain ⟨nd1, nd2, lt1, lt2, fke, fkr, cv, cs, ce, hcons⟩ := h
    obtain ⟨hmemnc, hidnc⟩ := findNota_mem hf
    have hidpres : ∀ n : NotaCredito,
        (if n.id = r.nota_credito_id then
          { n with saldo_disponivel := nc.saldo_disponivel - r.valor } else n).id = n.id := by
      intro n
      by_cases hid : n.id = r.nota_credito_id <;> simp [hid]
    refine ⟨?_, ?_, ?_, ?_, ?_, ?_, ?_, ?_, ?_, ?_⟩
    · rw [upd_map_pid NotaCredito.id
        (fun n => { n with saldo_disponivel := nc.saldo_disponivel - r.valor })
        (fun _ => rfl) r.nota_credito_id s.notas]
      exact nd1
    · simp only [List.map_cons]
      refine List.nodup_cons.mpr ⟨?_, nd2⟩
      intro hmem
      rw [List.mem_map] at hmem
      obtain ⟨e, hee, hid⟩ := hmem
      exact Nat.ne_of_lt (lt2 e hee) hid
    · intro n' hn'
      rw [List.mem_map] at hn'
      obtain ⟨n, hmem, rfl⟩ := hn'
      rw [hidpres n]
      exact Nat.lt_succ_of_lt (lt1 n hmem)
    · intro e' he'
      rcases List.mem_cons.mp he' with rfl | he''
      · exact Nat.lt_succ_self s.nextId
      · exact Nat.lt_succ_of_lt (lt2 e' he'')
    · intro e' he'
      rcases List.mem_cons.mp he' with rfl | he''
      · exact ⟨_, List.mem_map_of_mem _ hmemnc, (hidpres nc).trans hidnc⟩
      · obtain ⟨n, hmem, hid⟩ := fke e' he''
        exact ⟨_, List.mem_map_of_mem _ hmem, (hidpres n).trans hid⟩
    · intro rc hrc
      obtain ⟨n, hmem, hid⟩ := fkr rc hrc
      exact ⟨_, List.mem_map_of_mem _ hmem, (hidpres n).trans hid⟩
    · intro n' hn'
      rw [List.mem_map] at hn'
      obtain ⟨n, hmem, rfl⟩ := hn'
      by_cases hid : n.id = r.nota_credito_id
      · simp only [if_pos hid]
        exact cv n hmem
      · simp only [if_neg hid]
        exact cv n hmem
    · intro n' hn'
      rw [List.mem_map] at hn'
      obtain ⟨n, hmem, rfl⟩ := hn'
      by_cases hid : n.id = r.nota_credito_id
      · simp only [if_pos hid]
        exact centMul_sub (cs nc hmemnc) hc
      · simp only [if_neg hid]
        exact cs n hmem
    · intro e' he'
      rcases List.mem_cons.mp he' with rfl | he''
      · exact hc
      · exact ce e' he''
    · intro n' hn'
      rw [List.mem_map] at hn'
      obtain ⟨n, hmem, rfl⟩ := hn'
      have hold := hcons n hmem
      unfold conserved at hold ⊢
      by_cases hid : n.id = r.nota_credito_id
      · have hn_eq : n = nc := eq_of_pid_nodup NotaCredito.id nd1 hmem hmemnc (by rw [hid, hidnc])
        subst hn_eq
        simp only [if_pos hid, sumEmp, mkEmpenho]
        rw [if_pos hid.symm]
        linarith
      · simp only [if_neg hid, sumEmp, mkEmpenho]
        rw [if_neg fun hh => hid hh.symm]
        linarith

theorem inv_delete_empenho (s : DBState) (empenho_id : Nat) (h : LedgerInv s) :
    LedgerInv (delete_empenho s empenho_id).1 := by
  rcases hf : findEmpenho s empenho_id with _ | e
  all_goals simp only [delete_empenho, hf]
  all_goals try split_ifs with h1
  all_goals try exact h
  obtain ⟨nd1, nd2, lt1, lt2, fke, fkr, cv, cs, ce, hcons⟩ := h
  obtain ⟨hmeme, hide⟩ := findEmpenho_mem hf
  have hidpres : ∀ n : NotaCredito,
      (if n.id = e.nota_credito_id then
        { n with
          saldo_disponivel := n.saldo_disponivel + e.valor
          status := if n.status = "Totalmente Empenhada" then "Ativa" else n.status }
        else n).id = n.id := by
    intro n
    by_cases hid : n.id = e.nota_credito_id <;> simp [hid]
  refine ⟨?_, ?_, ?_, ?_, ?_, ?_, ?_, ?_, ?_, ?_⟩
  · rw [upd_map_pid NotaCredito.id
      (fun n => { n with
        saldo_disponivel := n.saldo_disponivel + e.valor
        status := if n.status = "Totalmente Empenhada" then "Ativa" else n.status })
      (fun _ => rfl) e.nota_credito_id s.notas]
    exact nd1
  · exact nd2.sublist ((List.filter_sublist s.empenhos).map Empenho.id)
  · intro n' hn'
    rw [List.mem_map] at hn'
    obtain ⟨n, hmem, rfl⟩ := hn'
    rw [hidpres n]
    exact lt1 n hmem
  · exact fun e' he' => lt2 e' (List.mem_of_mem_filter he')
  · intro e' he'
    obtain ⟨n, hmem, hid⟩ := fke e' (List.mem_of_mem_filter he')
    exact ⟨_, List.mem_map_of_mem _ hmem, (hidpres n).trans hid⟩
  · intro rc hrc
    obtain ⟨n, hmem, hid⟩ := fkr rc hrc
    exact ⟨_, List.mem_map_of_mem _ hmem, (hidpres n).trans hid⟩
  · intro n' hn'
    rw [List.mem_map] at hn'
    obtain ⟨n, hmem, rfl⟩ := hn'
    by_cases hid : n.id = e.nota_credito_id
    · simp only [if_pos hid]
      exact cv n hmem
    · simp only [if_neg hid]
      exact cv n hmem
  · intro n' hn'
    rw [List.mem_map] at hn'
    obtain ⟨n, hmem, rfl⟩ := hn'
    by_cases hid : n.id = e.nota_credito_id
    · simp only [if_pos hid]
      exact centMul_add (cs n hmem) (ce e hmeme)
    · simp only [if_neg hid]
      exact cs n hmem
  · exact fun e' he' => ce e' (List.mem_of_mem_filter he')
  · intro n' hn'
    rw [List.mem_map] at hn'
    obtain ⟨n, hmem, rfl⟩ := hn'
    have hold := hcons n hmem
    unfold conserved at hold ⊢
    by_cases hid : n.id = e.nota_credito_id
    · simp only [if_pos hid]
      rw [sumEmp_filter nd2 hmeme hide]
      rw [if_pos hid.symm]
      linarith
    · simp only [if_neg hid]
      rw [sumEmp_filter nd2 hmeme hide]
      rw [if_neg fun hh => hid hh.symm]
      linarith

theorem inv_create_anulacao (s : DBState) (r : AnulacaoEmpenhoBase) (hc : centMul r.valor)
    (h : LedgerInv s) : LedgerInv (create_anulacao s r).1 := by
  rcases hf : findEmpenho s r.empenho_id with _ | e
  all_goals simp only [create_anulacao, hf]
  all_goals split_ifs with h1 h2 h3
  all_goals try exact h
  · -- clamp branch: the decremented commitment value falls below 0.01
    obtain ⟨nd1, nd2, lt1, lt2, fke, fkr, cv, cs, ce, hcons⟩ := h
    obtain ⟨hmeme, hide⟩ := findEmpenho_mem hf
    have hresid : e.valor - r.valor = 0 :=
      centMul_eq_zero (centMul_sub (ce e hmeme) hc) (by linarith) h3
    have hidpres : ∀ n : NotaCredito,
        (if n.id = e.nota_credito_id then
          { n with
            saldo_disponivel := n.saldo_disponivel + r.valor
            status := if n.status = "Totalmente Empenhada" then "Ativa" else n.status }
          else n).id = n.id := by
      intro n
      by_cases hid : n.id = e.nota_credito_id <;> simp [hid]
    have hidprese : ∀ e2 : Empenho,
        (if e2.id = r.empenho_id then
          { e2 with valor := 0, status := some "Anulação Total Realizada" } else e2).id = e2.id := by
      intro e2
      by_cases hid : e2.id = r.empenho_id <;> simp [hid]
    refine ⟨?_, ?_, ?_, ?_, ?_, ?_, ?_, ?_, ?_, ?_⟩
    · rw [upd_map_pid NotaCredito.id
        (fun n => { n with
          saldo_disponivel := n.saldo_disponivel + r.valor
          status := if n.status = "Totalmente Empenhada" then "Ativa" else n.status })
        (fun _ => rfl) e.nota_credito_id s.notas]
      exact nd1
    · rw [upd_map_pid Empenho.id
        (fun e2 => { e2 with valor := 0, status := some "Anulação Total Realizada" })
        (fun _ => rfl) r.empenho_id s.empenhos]
      exact nd2
    · intro n' hn'
      rw [List.mem_map] at hn'
      obtain ⟨n, hmem, rfl⟩ := hn'
      rw [hidpres n]
      exact Nat.lt_succ_of_lt (lt1 n hmem)
    · intro e' he'
      rw [List.mem_map] at he'
      obtain ⟨e2, hmem, rfl⟩ := he'
      rw [hidprese e2]
      exact Nat.lt_succ_of_lt (lt2 e2 hmem)
    · intro e' he'
      rw [List.mem_map] at he'
      obtain ⟨e2, hmem, rfl⟩ := he'
      obtain ⟨n, hmemn, hid⟩ := fke e2 hmem
      refine ⟨_, List.mem_map_of_mem _ hmemn, (hidpres n).trans ?_⟩
      rw [hid]
      by_cases hid2 : e2.id = r.empenho_id <;> simp [hid2]
    · intro rc hrc
      obtain ⟨n, hmem, hid⟩ := fkr rc hrc
      exact ⟨_, List.mem_map_of_mem _ hmem, (hidpres n).trans hid⟩
    · intro n' hn'
      rw [List.mem_map] at hn'
      obtain ⟨n, hmem, rfl⟩ := hn'
      by_cases hid : n.id = e.nota_credito_id
      · simp only [if_pos hid]
        exact cv n hmem
      · simp only [if_neg hid]
        exact cv n hmem
    · intro n' hn'
      rw [List.mem_map] at hn'
      obtain ⟨n, hmem, rfl⟩ := hn'
      by_cases hid : n.id = e.nota_credito_id
      · simp only [if_pos hid]
        exact centMul_add (cs n hmem) hc
      · simp only [if_neg hid]
        exact cs n hmem
    · intro e' he'
      rw [List.mem_map] at he'
      obtain ⟨e2, hmem, rfl⟩ := he'
      by_cases hid : e2.id = r.empenho_id
      · simp only [if_pos hid]
        exact centMul_zero
      · simp only [if_neg hid]
        exact ce e2 hmem
    · intro n' hn'
      rw [List.mem_map] at hn'
      obtain ⟨n, hmem, rfl⟩ := hn'
      have hold := hcons n hmem
      unfold conserved at hold ⊢
      have hsum := sumEmp_map_upd
        (fun e2 => { e2 with valor := 0, status := some "Anulação Total Realizada" })
        (fun _ => rfl) nd2 hmeme hide
      by_cases hid : n.id = e.nota_credito_id
      · simp only [if_pos hid]
        rw [hsum]
        rw [if_pos hid.symm]
        simp only
        linarith
      · simp only [if_neg hid]
        rw [hsum]
        rw [if_neg fun hh => hid hh.symm]
        linarith
  · -- partial reversal: the stored value is decremented by the reversal value
    obtain ⟨nd1, nd2, lt1, lt2, fke, fkr, cv, cs, ce, hcons⟩ := h
    obtain ⟨hmeme, hide⟩ := findEmpenho_mem hf
    have hidpres : ∀ n : NotaCredito,
        (if n.id = e.nota_credito_id then
          { n with
            saldo_disponivel := n.saldo_disponivel + r.valor
            status := if n.status = "Totalmente Empenhada" then "Ativa" else n.status }
          else n).id = n.id := by
      intro n
      by_cases hid : n.id = e.nota_credito_id <;> simp [hid]
    have hidprese : ∀ e2 : Empenho,
        (if e2.id = r.empenho_id then
          { e2 with valor := e.valor - r.valor, status := some "Anulação Parcial Realizada" }
          else e2).id = e2.id := by
      intro e2
      by_cases hid : e2.id = r.empenho_id <;> simp [hid]
    refine ⟨?_, ?_, ?_, ?_, ?_, ?_, ?_, ?_, ?_, ?_⟩
    · rw [upd_map_pid NotaCredito.id
        (fun n => { n with
          saldo_disponivel := n.saldo_disponivel + r.valor
          status := if n.status = "Totalmente Empenhada" then "Ativa" else n.status })
        (fun _ => rfl) e.nota_credito_id s.notas]
      exact nd1
    · rw [upd_map_pid Empenho.id
        (fun e2 => { e2 with valor := e.valor - r.valor, status := some "Anulação Parcial Realizada" })
        (fun _ => rfl) r.empenho_id s.empenhos]
      exact nd2
    · intro n' hn'
      rw [List.mem_map] at hn'
      obtain ⟨n, hmem, rfl⟩ := hn'
      rw [hidpres n]
      exact Nat.lt_succ_of_lt (lt1 n hmem)
    · intro e' he'
      rw [List.mem_map] at he'
      obtain ⟨e2, hmem, rfl⟩ := he'
      rw [hidprese e2]
      exact Nat.lt_succ_of_lt (lt2 e2 hmem)
    · intro e' he'
      rw [List.mem_map] at he'
      obtain ⟨e2, hmem, rfl⟩ := he'
      obtain ⟨n, hmemn, hid⟩ := fke e2 hmem
      refine ⟨_, List.mem_map_of_mem _ hmemn, (hidpres n).trans ?_⟩
      rw [hid]
      by_cases hid2 : e2.id = r.empenho_id <;> simp [hid2]
    · intro rc hrc
      obtain ⟨n, hmem, hid⟩ := fkr rc hrc
      exact ⟨_, List.mem_map_of_mem _ hmem, (hidpres n).trans hid⟩
    · intro n' hn'
      rw [List.mem_map] at hn'
      obtain ⟨n, hmem, rfl⟩ := hn'
      by_cases hid : n.id = e.nota_credito_id
      · simp only [if_pos hid]
        exact cv n hmem
      · simp only [if_neg hid]
        exact cv n hmem
    · intro n' hn'
      rw [List.mem_map] at hn'
      obtain ⟨n, hmem, rfl⟩ := hn'
      by_cases hid : n.id = e.nota_credito_id
      · simp only [if_pos hid]
        exact centMul_add (cs n hmem) hc
      · simp only [if_neg hid]
        exact cs n hmem
    · intro e' he'
      rw [List.mem_map] at he'
      obtain ⟨e2, hmem, rfl⟩ := he'
      by_cases hid : e2.id = r.empenho_id
      · simp only [if_pos hid]
        exact centMul_sub (ce e hmeme) hc
      · simp only [if_neg hid]
        exact ce e2 hmem
    · intro n' hn'
      rw [List.mem_map] at hn'
      obtain ⟨n, hmem, rfl⟩ := hn'
      have hold := hcons n hmem
      unfold conserved at hold ⊢
      have hsum := sumEmp_map_upd
        (fun e2 => { e2 with valor := e.valor - r.valor, status := some "Anulação Parcial Realizada" })
        (fun _ => rfl) nd2 hmeme hide
      by_cases hid : n.id = e.nota_credito_id
      · simp only [if_pos hid]
        rw [hsum]
        rw [if_pos hid.symm]
        simp only
        linarith
      · simp only [if_neg hid]
        rw [hsum]
        rw [if_neg fun hh => hid hh.symm]
        linarith

theorem inv_create_recolhimento (s : DBState) (r : RecolhimentoSaldoBase) (hc : centMul r.valor)
    (h : LedgerInv s) : LedgerInv (create_recolhimento s r).1 := by
  rcases hf : findNota s r.nota_credito_id with _ | nc
  all_goals simp only [create_recolhimento, hf]
  all_goals split_ifs with h1 h2 h3
  all_goals try exact h
  · -- clamp branch
    obtain ⟨nd1, nd2, lt1, lt2, fke, fkr, cv, cs, ce, hcons⟩ := h
    obtain ⟨hmemnc, hidnc⟩ := findNota_mem hf
    have hnovo0 : nc.saldo_disponivel - r.valor = 0 :=
      centMul_eq_zero (centMul_sub (cs nc hmemnc) hc) (by linarith) h3
    have hidpres : ∀ n : NotaCredito,
        (if n.id = r.nota_credito_id then
          { n with saldo_disponivel := 0, status := "Totalmente Empenhada" } else n).id = n.id := by
      intro n
      by_cases hid : n.id = r.nota_credito_id <;> simp [hid]
    refine ⟨?_, nd2, ?_, ?_, ?_, ?_, ?_, ?_, ce, ?_⟩
    · rw [upd_map_pid NotaCredito.id
        (fun n => { n with saldo_disponivel := 0, status := "Totalmente Empenhada" })
        (fun _ => rfl) r.nota_credito_id s.notas]
      exact nd1
    · intro n' hn'
      rw [List.mem_map] at hn'
      obtain ⟨n, hmem, rfl⟩ := hn'
      rw [hidpres n]
      exact Nat.lt_succ_of_lt (lt1 n hmem)
    · exact fun e' he' => Nat.lt_succ_of_lt (lt2 e' he')
    · intro e' he'
      obtain ⟨n, hmem, hid⟩ := fke e' he'
      exact ⟨_, List.mem_map_of_mem _ hmem, (hidpres n).trans hid⟩
    · intro rc hrc
      rcases List.mem_cons.mp hrc with rfl | hrc'
      · exact ⟨_, List.mem_map_of_mem _ hmemnc, (hidpres nc).trans hidnc⟩
      · obtain ⟨n, hmem, hid⟩ := fkr rc hrc'
        exact ⟨_, List.mem_map_of_mem _ hmem, (hidpres n).trans hid⟩
    · intro n' hn'
      rw [List.mem_map] at hn'
      obtain ⟨n, hmem, rfl⟩ := hn'
      by_cases hid : n.id = r.nota_credito_id
      · simp only [if_pos hid]
        exact cv n hmem
      · simp only [if_neg hid]
        exact cv n hmem
    · intro n' hn'
      rw [List.mem_map] at hn'
      obtain ⟨n, hmem, rfl⟩ := hn'
      by_cases hid : n.id = r.nota_credito_id
      · simp only [if_pos hid]
        exact centMul_zero
      · simp only [if_neg hid]
        exact cs n hmem
    · intro n' hn'
      rw [List.mem_map] at hn'
      obtain ⟨n, hmem, rfl⟩ := hn'
      have hold := hcons n hmem
      unfold conserved at hold ⊢
      by_cases hid : n.id = r.nota_credito_id
      · have hn_eq : n = nc := eq_of_pid_nodup NotaCredito.id nd1 hmem hmemnc (by rw [hid, hidnc])
        subst hn_eq
        simp only [if_pos hid, sumRec]
        rw [if_pos hid.symm]
        linarith
      · simp only [if_neg hid, sumRec]
        rw [if_neg fun hh => hid hh.symm]
        linarith
  · -- no clamp
    obtain ⟨nd1, nd2, lt1, lt2, fke, fkr, cv, cs, ce, hcons⟩ := h
    obtain ⟨hmemnc, hidnc⟩ := findNota_mem hf
    have hidpres : ∀ n : NotaCredito,
        (if n.id = r.nota_credito_id then
          { n with saldo_disponivel := nc.saldo_disponivel - r.valor } else n).id = n.id := by
      intro n
      by_cases hid : n.id = r.nota_credito_id <;> simp [hid]
    refine ⟨?_, nd2, ?_, ?_, ?_, ?_, ?_, ?_, ce, ?_⟩
    · rw [upd_map_pid NotaCredito.id
        (fun n => { n with saldo_disponivel := nc.saldo_disponivel - r.valor })
        (fun _ => rfl) r.nota_credito_id s.notas]
      exact nd1
    · intro n' hn'
      rw [List.mem_map] at hn'
      obtain ⟨n, hmem, rfl⟩ := hn'
      rw [hidpres n]
      exact Nat.lt_succ_of_lt (lt1 n hmem)
    · exact fun e' he' => Nat.lt_succ_of_lt (lt2 e' he')
    · intro e' he'
      obtain ⟨n, hmem, hid⟩ := fke e' he'
      exact ⟨_, List.mem_map_of_mem _ hmem, (hidpres n).trans hid⟩
    · intro rc hrc
      rcases List.mem_cons.mp hrc with rfl | hrc'
      · exact ⟨_, List.mem_map_of_mem _ hmemnc, (hidpres nc).trans hidnc⟩
      · obtain ⟨n, hmem, hid⟩ := fkr rc hrc'
        exact ⟨_, List.mem_map_of_mem _ hmem, (hidpres n).trans hid⟩
    · intro n' hn'
      rw [List.mem_map] at hn'
      obtain ⟨n, hmem, rfl⟩ := hn'
      by_cases hid : n.id = r.nota_credito_id
      · simp only [if_pos hid]
        exact cv n hmem
      · simp only [if_neg hid]
        exact cv n hmem
    · intro n' hn'
      rw [List.mem_map] at hn'
      obtain ⟨n, hmem, rfl⟩ := hn'
      by_cases hid : n.id = r.nota_credito_id
      · simp only [if_pos hid]
        exact centMul_sub (cs nc hmemnc) hc
      · simp only [if_neg hid]
        exact cs n hmem
    · intro n' hn'
      rw [List.mem_map] at hn'
      obtain ⟨n, hmem, rfl⟩ := hn'
      have hold := hcons n hmem
      unfold conserved at hold ⊢
      by_cases hid : n.id = r.nota_credito_id
      · have hn_eq : n = nc := eq_of_pid_nodup NotaCredito.id nd1 hmem hmemnc (by rw [hid, hidnc])
        subst hn_eq
        simp only [if_pos hid, sumRec]
        rw [if_pos hid.symm]
        linarith
      · simp only [if_neg hid, sumRec]
        rw [if_neg fun hh => hid hh.symm]
        linarith

theorem inv_step (s : DBState) (op : Op) (hc : op.cent) (h : LedgerInv s) :
    LedgerInv (op.step s).1 := by
  cases op with
  | createNc r => exact inv_create_nota s r hc h
  | updateNc i r => exact inv_update_nota s i r hc h
  | deleteNc i => exact inv_delete_nota s i h
  | createEmp r => exact inv_create_empenho s r hc h
  | deleteEmp i => exact inv_delete_empenho s i h
  | createAnul r => exact inv_create_anulacao s r hc h
  | createRecol r => exact inv_create_recolhimento s r hc h

theorem inv_runOps (s : DBState) (ops : List Op) (hc : ∀ op ∈ ops, op.cent)
    (h : LedgerInv s) : LedgerInv (runOps s ops) := by
  induction ops generalizing s with
  | nil => exact h
  | cons op ops ih =>
    exact ih _ (fun o ho => hc o (List.mem_cons_of_mem _ ho))
      (inv_step s op (hc op (List.mem_cons_self _ _)) h)

theorem inv_initState (secs : List Nat) : LedgerInv (initState secs) := by
  refine ⟨List.nodup_nil, List.nodup_nil, ?_, ?_, ?_, ?_, ?_, ?_, ?_, ?_⟩ <;>
    intro x hx <;> cases hx

/-- Every rejected request returns the unmodified state: the checks precede
the mutations and the `IntegrityError` rollback discards the pending row
changes, so an error outcome and a state change never coexist. -/
theorem step_error_keeps_state (s : DBState) (op : Op) :
    (op.step s).1 = s ∨ (op.step s).2 = none := by
  cases op with
  | createNc r =>
    simp only [Op.step, create_nota_credito]
    split_ifs <;> simp
  | updateNc i r =>
    rcases hf : findNota s i with _ | nc
    all_goals simp only [Op.step, update_nota_credito, hf]
    all_goals split_ifs <;> simp
  | deleteNc i =>
    rcases hf : findNota s i with _ | nc
    all_goals simp only [Op.step, delete_nota_credito, hf]
    all_goals try split_ifs
    all_goals simp
  | createEmp r =>
    rcases hf : findNota s r.nota_credito_id with _ | nc
    all_goals simp only [Op.step, create_empenho, hf]
    all_goals split_ifs <;> simp
  | deleteEmp i =>
    rcases hf : findEmpenho s i with _ | e
    all_goals simp only [Op.step, delete_empenho, hf]
    all_goals try split_ifs
    all_goals simp
  | createAnul r =>
    rcases hf : findEmpenho s r.empenho_id with _ | e
    all_goals simp only [Op.step, create_anulacao, hf]
    all_goals split_ifs <;> simp
  | createRecol r =>
    rcases hf : findNota s r.nota_credito_id with _ | nc
    all_goals simp only [Op.step, create_recolhimento, hf]
    all_goals split_ifs <;> simp

/-! ### Concrete sample requests used by witnesses and counterexamples -/

/-- A well-formed credit-note payload for section 1. -/
def sampleNc (num : String) (v : ℚ) : NotaCreditoCreate :=
  { numero_nc := num, valor := v, esfera := "Federal", fonte := "0100", ptres := "123456",
    plano_interno := "PI1", nd := "339030", data_chegada := 0, prazo_empenho := 30,
    descricao := none, secao_responsavel_id := 1 }

/-- A well-formed commitment payload for section 1. -/
def sampleEmp (num : String) (v : ℚ) (ncid : Nat) : EmpenhoCreate :=
  { numero_ne := num, valor := v, data_empenho := 0, observacao := none,
    nota_credito_id := ncid, secao_requisitante_id := 1, is_fake := false }

/-- A reversal payload. -/
def sampleAnul (eid : Nat) (v : ℚ) : AnulacaoEmpenhoBase :=
  { empenho_id := eid, valor := v, data := 0, observacao := none }

/-- A return payload. -/
def sampleRec (ncid : Nat) (v : ℚ) : RecolhimentoSaldoBase :=
  { nota_credito_id := ncid, valor := v, data := 0, observacao := none }

/-! ### The claims -/

/-- Claim C3 (amended): after every sequence of ledger operations from a fresh
database, every credit note's available balance is at least `-0.01` — not `0`:
`update_nota_credito` accepts a new total that leaves the balance as low as
`-0.01` — and every commitment's stored value is non-negative; any operation
that would go below these bounds is rejected without being applied. -/
theorem nonneg_after_runOps (secs : List Nat) (ops : List Op) :
    (∀ nc ∈ (runOps (initState secs) ops).notas, -(1/100) ≤ nc.saldo_disponivel) ∧
    (∀ e ∈ (runOps (initState secs) ops).empenhos, 0 ≤ e.valor) :=
  nonneg_runOps (initState secs) ops (nonneg_initState secs)

/-- Claim C3, counterexample to the claim as stated: updating a note with
original value 100 and balance 50 down to a new total of 49.99 is accepted
(the rejection threshold is `novo_saldo < -0.01`, main.py line 548) and leaves
the available balance at `-0.01 < 0`. -/
theorem saldo_negative_reachable :
    ¬ ∀ nc ∈ (runOps (initState [1])
        [Op.createNc (sampleNc "NC-A" 100), Op.createEmp (sampleEmp "NE-A" 50 0),
          Op.updateNc 0 (sampleNc "NC-A" (4999/100))]).notas,
      0 ≤ nc.saldo_disponivel := by
  norm_num +decide [runOps, Op.step, create_nota_credito, create_empenho, update_nota_credito,
    initState, sampleNc, sampleEmp, mkNota, mkEmpenho, setNotaFields, findNota, List.find?]

/-- Claim C9: a rejected ledger request — any endpoint, any error kind —
returns the database state unchanged: the precondition checks precede every
mutation, and the constraint-violation branch rolls the pending row changes
back. -/
theorem idempotent_rejection (s : DBState) (op : Op) (e : ApiError)
    (h : (op.step s).2 = some e) : (op.step s).1 = s := by
  rcases step_error_keeps_state s op with h1 | h2
  · exact h1
  · rw [h2] at h
    cases h

/-- Claim C9, witness: deleting a non-existent credit note is rejected with
the note-not-found error and leaves the fresh database untouched. -/
theorem idempotent_rejection_witness :
    ((Op.deleteNc 0).step (initState [5])).2 = some ApiError.ncNotFound ∧
    ((Op.deleteNc 0).step (initState [5])).1 = initState [5] :=
  ⟨by decide, idempotent_rejection (initState [5]) (Op.deleteNc 0) ApiError.ncNotFound (by decide)⟩

/-- Claim C10: neither `update_nota_credito` nor `create_empenho` performs an
application-level existence check on the referenced section — neither can ever
answer the not-found rejection used for sections — while `create_nota_credito`
answers it exactly when its payload is valid and the section id is absent. -/
theorem secao_existence_checks (s : DBState) (nc_id : Nat) (rn : NotaCreditoCreate)
    (re : EmpenhoCreate) :
    (update_nota_credito s nc_id rn).2 ≠ some ApiError.secaoNotFound ∧
    (create_empenho s re).2 ≠ some ApiError.secaoNotFound ∧
    ((create_nota_credito s rn).2 = some ApiError.secaoNotFound ↔
      0 < rn.valor ∧ rn.secao_responsavel_id ∉ s.secoes) := by
  refine ⟨?_, ?_, ?_⟩
  · rcases hf : findNota s nc_id with _ | nc
    all_goals simp only [update_nota_credito, hf]
    all_goals split_ifs <;> simp
  · rcases hf : findNota s re.nota_credito_id with _ | nc
    all_goals simp only [create_empenho, hf]
    all_goals split_ifs <;> simp
  · simp only [create_nota_credito]
    split_ifs with h1 h2 h3 <;> simp_all

/-- The create-commitment contract: the three rejection cases in the order
the handler checks them, and the success effect with the 0.01 clamp. -/
def CreateEmpenhoContract (s : DBState) (r : EmpenhoCreate) : Prop :=
  (findNota s r.nota_credito_id = none → create_empenho s r = (s, some ApiError.ncNotFound)) ∧
  (∀ nc, findNota s r.nota_credito_id = some nc → ¬ nc.status = "Ativa" →
    create_empenho s r = (s, some ApiError.ncNotAtiva)) ∧
  (∀ nc, findNota s r.nota_credito_id = some nc → nc.status = "Ativa" →
    nc.saldo_disponivel < r.valor →
    create_empenho s r = (s, some ApiError.saldoInsuficiente)) ∧
  (∀ nc, findNota s r.nota_credito_id = some nc → nc.status = "Ativa" →
    r.valor ≤ nc.saldo_disponivel →
    (create_empenho s r).2 = none ∧
    (create_empenho s r).1.empenhos = mkEmpenho r s.nextId :: s.empenhos ∧
    ∃ nc', findNota (create_empenho s r).1 r.nota_credito_id = some nc' ∧
      nc'.saldo_disponivel = (if nc.saldo_disponivel - r.valor < 1/100 then 0
        else nc.saldo_disponivel - r.valor) ∧
      nc'.status = (if nc.saldo_disponivel - r.valor < 1/100 then "Totalmente Empenhada"
        else nc.status))

/-- Claim C4: for a payload with non-negative value, a fresh commitment code
and an existing requesting section, `create_empenho` fails with not-found when
the note is missing, with the invalid-state error when the note is not
`Ativa`, with insufficient-balance when the value exceeds the available
balance; otherwise the commitment row is created, the balance drops by the
value, and a resulting balance below `0.01` is clamped to `0` with the status
set to fully committed. -/
theorem create_empenho_contract (s : DBState) (r : EmpenhoCreate)
    (hval : 0 ≤ r.valor)
    (hfresh : ∀ e ∈ s.empenhos, ¬ e.numero_ne = r.numero_ne)
    (hsec : r.secao_requisitante_id ∈ s.secoes) :
    CreateEmpenhoContract s r := by
  unfold CreateEmpenhoContract
  refine ⟨?_, ?_, ?_, ?_⟩
  · intro hf
    simp only [create_empenho, hf, if_neg (not_not_intro hval)]
  · intro nc hf hstat
    simp only [create_empenho, hf, if_neg (not_not_intro hval), if_pos hstat]
  · intro nc hf hstat hlt
    simp only [create_empenho, hf, if_neg (not_not_intro hval), if_neg (not_not_intro hstat),
      if_pos hlt]
  · intro nc hf hstat hle
    simp only [create_empenho, hf, if_neg (not_not_intro hval), if_neg (not_not_intro hstat),
      if_neg (not_lt.mpr hle), if_pos (And.intro hfresh hsec)]
    refine ⟨trivial, trivial, ?_⟩
    by_cases hclamp : nc.saldo_disponivel - r.valor < 1/100
    · simp only [if_pos hclamp]
      refine ⟨{ nc with saldo_disponivel := 0, status := "Totalmente Empenhada" }, ?_, rfl, rfl⟩
      show (s.notas.map (fun n => if n.id = r.nota_credito_id then
          { n with saldo_disponivel := 0, status := "Totalmente Empenhada" } else n)).find?
          (fun n => n.id == r.nota_credito_id) = _
      rw [find?_map_upd NotaCredito.id
        (fun n => { n with saldo_disponivel := 0, status := "Totalmente Empenhada" })
        (fun _ => rfl) r.nota_credito_id s.notas]
      rw [show s.notas.find? (fun n => n.id == r.nota_credito_id) = findNota s r.nota_credito_id
        from rfl, hf]
      rfl
    · simp only [if_neg hclamp]
      refine ⟨{ nc with saldo_disponivel := nc.saldo_disponivel - r.valor }, ?_, rfl, rfl⟩
      show (s.notas.map (fun n => if n.id = r.nota_credito_id then
          { n with saldo_disponivel := nc.saldo_disponivel - r.valor } else n)).find?
          (fun n => n.id == r.nota_credito_id) = _
      rw [find?_map_upd NotaCredito.id
        (fun n => { n with saldo_disponivel := nc.saldo_disponivel - r.valor })
        (fun _ => rfl) r.nota_credito_id s.notas]
      rw [show s.notas.find? (fun n => n.id == r.nota_credito_id) = findNota s r.nota_credito_id
        from rfl, hf]
      rfl

/-- A one-note database for exercising the create-commitment contract. -/
def c4state : DBState :=
  (create_nota_credito (initState [1]) (sampleNc "NC-C4" 100)).1

/-- Claim C4, witness: the contract instantiated on a fresh one-note database
and a commitment of 40 against it. -/
theorem create_empenho_contract_witness :
    0 ≤ (sampleEmp "NE-C4" 40 0).valor ∧
    (∀ e ∈ c4state.empenhos, ¬ e.numero_ne = (sampleEmp "NE-C4" 40 0).numero_ne) ∧
    (sampleEmp "NE-C4" 40 0).secao_requisitante_id ∈ c4state.secoes ∧
    CreateEmpenhoContract c4state (sampleEmp "NE-C4" 40 0) := by
  have h1 : 0 ≤ (sampleEmp "NE-C4" 40 0).valor := by norm_num [sampleEmp]
  have h2 : ∀ e ∈ c4state.empenhos, ¬ e.numero_ne = (sampleEmp "NE-C4" 40 0).numero_ne := by
    intro e hee
    norm_num +decide [c4state, create_nota_credito, initState, sampleNc] at hee
  have h3 : (sampleEmp "NE-C4" 40 0).secao_requisitante_id ∈ c4state.secoes := by
    norm_num +decide [c4state, create_nota_credito, initState, sampleNc, sampleEmp]
  exact ⟨h1, h2, h3, create_empenho_contract c4state (sampleEmp "NE-C4" 40 0) h1 h2 h3⟩

/-- The create-credit-note contract as implemented: missing section, duplicate
identifier, success — and no condition on the dates. -/
def CreateNotaContract (s : DBState) (r : NotaCreditoCreate) : Prop :=
  (r.secao_responsavel_id ∉ s.secoes → create_nota_credito s r = (s, some ApiError.secaoNotFound)) ∧
  (r.secao_responsavel_id ∈ s.secoes → (∃ n ∈ s.notas, n.numero_nc = r.numero_nc) →
    create_nota_credito s r = (s, some ApiError.integrityNc)) ∧
  (r.secao_responsavel_id ∈ s.secoes → (∀ n ∈ s.notas, ¬ n.numero_nc = r.numero_nc) →
    create_nota_credito s r =
      ({ s with notas := mkNota r s.nextId :: s.notas, nextId := s.nextId + 1 }, none) ∧
    (mkNota r s.nextId).saldo_disponivel = r.valor ∧
    (mkNota r s.nextId).status = "Ativa")

/-- Claim C8 (amended): for a payload with positive value, `create_nota_credito`
initializes the stored balance to the supplied original value with status
`Ativa`, rejects a missing responsible section with not-found and a colliding
identifier with the integrity error — and imposes no relation between the
commitment-deadline date and the arrival date (the case the claim said is
rejected is accepted, see the counterexample). -/
theorem create_nota_contract (s : DBState) (r : NotaCreditoCreate) (hval : 0 < r.valor) :
    CreateNotaContract s r := by
  unfold CreateNotaContract
  refine ⟨?_, ?_, ?_⟩
  · intro hsec
    simp only [create_nota_credito, if_neg (not_not_intro hval), if_pos hsec]
  · intro hsec hdup
    simp only [create_nota_credito, if_neg (not_not_intro hval), if_neg (not_not_intro hsec),
      if_pos hdup]
  · intro hsec hnodup
    have hnd : ¬ ∃ n ∈ s.notas, n.numero_nc = r.numero_nc := by
      rintro ⟨n, hn, hh⟩
      exact hnodup n hn hh
    simp only [create_nota_credito, if_neg (not_not_intro hval), if_neg (not_not_intro hsec),
      if_neg hnd]
    refine ⟨?_, ?_, ?_⟩ <;> first
      | trivial
      | rfl

/-- Claim C8, witness: the contract instantiated on a fresh database. -/
theorem create_nota_contract_witness :
    0 < (sampleNc "NC-C8" 250).valor ∧
    CreateNotaContract (initState [1]) (sampleNc "NC-C8" 250) := by
  have h1 : 0 < (sampleNc "NC-C8" 250).valor := by norm_num [sampleNc]
  exact ⟨h1, create_nota_contract (initState [1]) (sampleNc "NC-C8" 250) h1⟩

/-- Claim C8, counterexample to the claim as stated: a payload whose
commitment deadline (day 5) precedes its arrival date (day 10) is accepted —
`create_nota_credito` never compares the two dates. -/
theorem create_nota_dates_accepted :
    (create_nota_credito (initState [1])
      { sampleNc "NC-C8X" 100 with data_chegada := 10, prazo_empenho := 5 }).2 = none ∧
    ({ sampleNc "NC-C8X" 100 with data_chegada := 10, prazo_empenho := 5 }
      : NotaCreditoCreate).prazo_empenho <
    ({ sampleNc "NC-C8X" 100 with data_chegada := 10, prazo_empenho := 5 }
      : NotaCreditoCreate).data_chegada := by
  norm_num +decide [create_nota_credito, initState, sampleNc]

/-- The update-credit-note contract as implemented: the rejection threshold is
`novo_saldo < -0.01`, and the status is not re-derived. -/
def UpdateNotaContract (s : DBState) (nc_id : Nat) (r : NotaCreditoCreate) : Prop :=
  (findNota s nc_id = none → update_nota_credito s nc_id r = (s, some ApiError.ncNotFound)) ∧
  (∀ nc, findNota s nc_id = some nc →
    r.valor - (nc.valor - nc.saldo_disponivel) < -(1/100) →
    update_nota_credito s nc_id r = (s, some ApiError.valorMenorQueEmpenhado)) ∧
  (∀ nc, findNota s nc_id = some nc →
    -(1/100) ≤ r.valor - (nc.valor - nc.saldo_disponivel) →
    (∀ n ∈ s.notas, n.id = nc_id ∨ ¬ n.numero_nc = r.numero_nc) →
    r.secao_responsavel_id ∈ s.secoes →
    (update_nota_credito s nc_id r).2 = none ∧
    ∃ nc', findNota (update_nota_credito s nc_id r).1 nc_id = some nc' ∧
      nc'.valor = r.valor ∧
      nc'.saldo_disponivel = r.valor - (nc.valor - nc.saldo_disponivel) ∧
      nc'.status = nc.status)

/-- Claim C6 (amended): `update_nota_credito` recomputes
`already_committed = old_value - old_balance` and rejects exactly when
`new_value - already_committed < -0.01` — not `< 0` as the claim states —
and on success sets the balance to `new_value - already_committed` while
leaving the status unchanged instead of re-deriving it. -/
theorem update_nota_contract (s : DBState) (nc_id : Nat) (r : NotaCreditoCreate)
    (hval : 0 < r.valor) : UpdateNotaContract s nc_id r := by
  unfold UpdateNotaContract
  refine ⟨?_, ?_, ?_⟩
  · intro hf
    simp only [update_nota_credito, if_neg (not_not_intro hval), hf]
  · intro nc hf hneg
    simp only [update_nota_credito, if_neg (not_not_intro hval), hf, if_pos hneg]
  · intro nc hf hge hnum hsec
    simp only [update_nota_credito, if_neg (not_not_intro hval), hf,
      if_neg (not_lt.mpr hge), if_pos (And.intro hnum hsec)]
    refine ⟨trivial, ?_⟩
    refine ⟨setNotaFields r (r.valor - (nc.valor - nc.saldo_disponivel)) nc, ?_, rfl, rfl, rfl⟩
    show (s.notas.map (fun n => if n.id = nc_id then
        setNotaFields r (r.valor - (nc.valor - nc.saldo_disponivel)) n else n)).find?
        (fun n => n.id == nc_id) = _
    rw [find?_map_upd NotaCredito.id
      (setNotaFields r (r.valor - (nc.valor - nc.saldo_disponivel)))
      (fun _ => rfl) nc_id s.notas]
    rw [show s.notas.find? (fun n => n.id == nc_id) = findNota s nc_id from rfl, hf]
    rfl

/-- A one-note database for exercising the update contract. -/
def c6state : DBState :=
  (create_nota_credito (initState [1]) (sampleNc "NC-C6" 100)).1

/-- Claim C6, witness: the contract instantiated on a one-note database and a
new total value of 120. -/
theorem update_nota_contract_witness :
    0 < (sampleNc "NC-C6" 120).valor ∧ UpdateNotaContract c6state 0 (sampleNc "NC-C6" 120) := by
  have h1 : 0 < (sampleNc "NC-C6" 120).valor := by norm_num [sampleNc]
  exact ⟨h1, update_nota_contract c6state 0 (sampleNc "NC-C6" 120) h1⟩

/-- The database reached by committing 50 of a 100 note, used to exhibit the
update threshold. -/
def c6badstate : DBState :=
  runOps (initState [1]) [Op.createNc (sampleNc "NC-B" 100), Op.createEmp (sampleEmp "NE-B" 50 0)]

/-- Claim C6, counterexample to the claim as stated: against a note with
original value 100 and balance 50 (50 already committed), an update to the new
total 49.995 satisfies `new_value - already_committed < 0`, so the claim says
it is rejected — but the code accepts it (its threshold is `-0.01`). -/
theorem update_threshold_counterexample :
    (findNota c6badstate 0).map (fun n => n.valor - n.saldo_disponivel) = some 50 ∧
    (sampleNc "NC-B" (49995/1000)).valor - 50 < 0 ∧
    (update_nota_credito c6badstate 0 (sampleNc "NC-B" (49995/1000))).2 = none := by
  norm_num +decide [c6badstate, runOps, Op.step, create_nota_credito, create_empenho,
    update_nota_credito, initState, sampleNc, sampleEmp, mkNota, mkEmpenho, setNotaFields,
    findNota, List.find?]

/-- The create-reversal contract as implemented: the admissibility check is
against the stored running value of the commitment. -/
def CreateAnulacaoContract (s : DBState) (r : AnulacaoEmpenhoBase) : Prop :=
  (¬ 0 < r.valor → create_anulacao s r = (s, some ApiError.invalidPayload)) ∧
  (0 < r.valor → findEmpenho s r.empenho_id = none →
    create_anulacao s r = (s, some ApiError.empenhoNotFound)) ∧
  (∀ e, 0 < r.valor → findEmpenho s r.empenho_id = some e → e.valor < r.valor →
    create_anulacao s r = (s, some ApiError.anulacaoExcedeEmpenho)) ∧
  (∀ e, 0 < r.valor → findEmpenho s r.empenho_id = some e → r.valor ≤ e.valor →
    (create_anulacao s r).2 = none ∧
    (∃ e', findEmpenho (create_anulacao s r).1 r.empenho_id = some e' ∧
      e'.valor = (if e.valor - r.valor < 1/100 then 0 else e.valor - r.valor)) ∧
    (∀ nc, findNota s e.nota_credito_id = some nc →
      ∃ nc', findNota (create_anulacao s r).1 e.nota_credito_id = some nc' ∧
        nc'.saldo_disponivel = nc.saldo_disponivel + r.valor))

/-- Claim C5 (amended): a reversal of value `v` on a commitment is rejected
exactly when `v` is not positive (schema validation) or `v` exceeds the
commitment's *stored* running value — which each reversal decrements in place
and clamps to `0` below `0.01`, so it can be strictly smaller than the
original value minus the sum of prior reversals (see the counterexample);
when accepted, the owning note's balance increases by `v` and the stored
value decreases by `v`, or is set to `0` by the clamp. -/
theorem create_anulacao_contract (s : DBState) (r : AnulacaoEmpenhoBase) :
    CreateAnulacaoContract s r := by
  unfold CreateAnulacaoContract
  refine ⟨?_, ?_, ?_, ?_⟩
  · intro hneg
    simp only [create_anulacao, if_pos hneg]
  · intro hpos hf
    simp only [create_anulacao, if_neg (not_not_intro hpos), hf]
  · intro e hpos hf hlt
    simp only [create_anulacao, if_neg (not_not_intro hpos), hf, if_pos hlt]
  · intro e hpos hf hle
    simp only [create_anulacao, if_neg (not_not_intro hpos), hf, if_neg (not_lt.mpr hle)]
    refine ⟨trivial, ?_, ?_⟩
    · by_cases hclamp : e.valor - r.valor < 1/100
      · simp only [if_pos hclamp]
        refine ⟨{ e with valor := 0, status := some "Anulação Total Realizada" }, ?_, rfl⟩
        show (s.empenhos.map (fun e2 => if e2.id = r.empenho_id then
            { e2 with valor := 0, status := some "Anulação Total Realizada" } else e2)).find?
            (fun e2 => e2.id == r.empenho_id) = _
        rw [find?_map_upd Empenho.id
          (fun e2 => { e2 with valor := 0, status := some "Anulação Total Realizada" })
          (fun _ => rfl) r.empenho_id s.empenhos]
        rw [show s.empenhos.find? (fun e2 => e2.id == r.empenho_id) = findEmpenho s r.empenho_id
          from rfl, hf]
        rfl
      · simp only [if_neg hclamp]
        refine ⟨{ e with valor := e.valor - r.valor, status := some "Anulação Parcial Realizada" }, ?_, rfl⟩
        show (s.empenhos.map (fun e2 => if e2.id = r.empenho_id then
            { e2 with valor := e.valor - r.valor, status := some "Anulação Parcial Realizada" }
            else e2)).find? (fun e2 => e2.id == r.empenho_id) = _
        rw [find?_map_upd Empenho.id
          (fun e2 => { e2 with valor := e.valor - r.valor, status := some "Anulação Parcial Realizada" })
          (fun _ => rfl) r.empenho_id s.empenhos]
        rw [show s.empenhos.find? (fun e2 => e2.id == r.empenho_id) = findEmpenho s r.empenho_id
          from rfl, hf]
        rfl
    · intro nc hfn
      refine ⟨{ nc with saldo_disponivel := nc.saldo_disponivel + r.valor, status := if nc.status = "Totalmente Empenhada" then "Ativa" else nc.status }, ?_, rfl⟩
      show (s.notas.map (fun n => if n.id = e.nota_credito_id then { n with saldo_disponivel := n.saldo_disponivel + r.valor, status := if n.status = "Totalmente Empenhada" then "Ativa" else n.status } else n)).find? (fun n => n.id == e.nota_credito_id) = _
      rw [find?_map_upd NotaCredito.id
        (fun n => { n with saldo_disponivel := n.saldo_disponivel + r.valor, status := if n.status = "Totalmente Empenhada" then "Ativa" else n.status })
        (fun _ => rfl) e.nota_credito_id s.notas]
      rw [show s.notas.find? (fun n => n.id == e.nota_credito_id) = findNota s e.nota_credito_id
        from rfl, hfn]
      rfl

/-- The database reached by committing 9.995 of a 10-value note and then
reversing 9.99 of the commitment, at which point the clamp has zeroed the
stored value although `original - Σ reversals = 0.005`. -/
def c5state : DBState :=
  runOps (initState [1]) [Op.createNc (sampleNc "NC-W" 10),
    Op.createEmp (sampleEmp "NE-W" (9995/1000) 0), Op.createAnul (sampleAnul 1 (999/100))]

/-- Claim C5, counterexample to the claim as stated: a further reversal of
0.005 is positive and does not exceed the commitment's net remaining value
(original 9.995 minus 9.99 of recorded reversals), so the claim says it is
accepted — but the code rejects it against the clamped stored value 0. -/
theorem anulacao_stored_value_counterexample :
    (create_anulacao c5state (sampleAnul 1 (1/200))).2 = some ApiError.anulacaoExcedeEmpenho ∧
    0 < (sampleAnul 1 (1/200)).valor ∧
    (sampleAnul 1 (1/200)).valor ≤
      (sampleEmp "NE-W" (9995/1000) 0).valor - sumAnul c5state.anulacoes 1 := by
  norm_num +decide [c5state, runOps, Op.step, create_nota_credito, create_empenho,
    create_anulacao, initState, sampleNc, sampleEmp, sampleAnul, mkNota, mkEmpenho,
    findNota, findEmpenho, List.find?, sumAnul]

/-- Claim C1 (amended): conservation — the note's original value equals its
available balance plus the sum of its commitments' stored values (already net
of reversals) plus the sum of its return values — holds after every sequence
of ledger operations whose supplied monetary values are whole numbers of
cents.  With sub-cent values the 0.01 clamps silently discard residue and the
equation fails (see the counterexample). -/
theorem conservation_whole_cents (secs : List Nat) (ops : List Op)
    (hc : ∀ op ∈ ops, op.cent) :
    ∀ nc ∈ (runOps (initState secs) ops).notas,
      conserved (runOps (initState secs) ops) nc :=
  (inv_runOps (initState secs) ops hc (inv_initState secs)).conservedAll

/-- Claim C1, witness: a 100 note carrying a 40 commitment conserves value. -/
theorem conservation_whole_cents_witness :
    (∀ op ∈ [Op.createNc (sampleNc "NC-C1" 100), Op.createEmp (sampleEmp "NE-C1" 40 0)],
      op.cent) ∧
    ∀ nc ∈ (runOps (initState [1])
        [Op.createNc (sampleNc "NC-C1" 100), Op.createEmp (sampleEmp "NE-C1" 40 0)]).notas,
      conserved (runOps (initState [1])
        [Op.createNc (sampleNc "NC-C1" 100), Op.createEmp (sampleEmp "NE-C1" 40 0)]) nc := by
  have hc : ∀ op ∈ [Op.createNc (sampleNc "NC-C1" 100), Op.createEmp (sampleEmp "NE-C1" 40 0)],
      op.cent := by
    intro op hop
    rcases List.mem_cons.mp hop with rfl | hop
    · exact ⟨10000, by norm_num [sampleNc]⟩
    rcases List.mem_cons.mp hop with rfl | hop
    · exact ⟨4000, by norm_num [sampleEmp]⟩
    · cases hop
  exact ⟨hc, conservation_whole_cents [1] _ hc⟩

/-- Claim C1, counterexample to the claim as stated: committing 9.995 against
a note of original value 10 trips the clamp (residue 0.005 < 0.01), the
balance is forced to 0, and `10 ≠ 0 + 9.995 + 0` — conservation fails for a
reachable state. -/
theorem conservation_exact_fails :
    ¬ ∀ nc ∈ (runOps (initState [1])
        [Op.createNc (sampleNc "NC-X" 10), Op.createEmp (sampleEmp "NE-X" (9995/1000) 0)]).notas,
      conserved (runOps (initState [1])
        [Op.createNc (sampleNc "NC-X" 10), Op.createEmp (sampleEmp "NE-X" (9995/1000) 0)]) nc := by
  norm_num +decide [runOps, Op.step, create_nota_credito, create_empenho, initState,
    sampleNc, sampleEmp, mkNota, mkEmpenho, findNota, List.find?, conserved, sumEmp, sumRec]

/-- Modelled from the spec: `update_commitment(commitment_id, new_value,
metadata)` of specification section 4.1.  No such handler exists in
src/main.py — the commitment endpoints there are create, list and delete —
while the specification describes the operation as part of the ledger engine
carried by other revisions of the repository.  Preconditions from the spec:
commitment exists; owning note exists; `new_value ≤ note.available_balance +
commitment.current_value`.  Effect: `note.available_balance +=
commitment.current_value - new_value`; `commitment.value = new_value`; the
note's status is re-derived in both directions from the epsilon rule. -/
def update_empenho (s : DBState) (empenho_id : Nat) (new_valor : ℚ) :
    DBState × Option ApiError :=
  if ¬ 0 ≤ new_valor then (s, some .invalidPayload)
  else
    match findEmpenho s empenho_id with
    | none => (s, some .empenhoNotFound)
    | some e =>
      match findNota s e.nota_credito_id with
      | none => (s, some .ncNotFound)
      | some nc =>
        if nc.saldo_disponivel + e.valor < new_valor then (s, some .saldoInsuficiente)
        else
          let novo := nc.saldo_disponivel + e.valor - new_valor
          ({ s with
              notas := s.notas.map (fun n =>
                if n.id = e.nota_credito_id then { n with saldo_disponivel := novo, status := if novo < 1/100 then "Totalmente Empenhada" else "Ativa" } else n)
              empenhos := s.empenhos.map (fun e2 =>
                if e2.id = empenho_id then { e2 with valor := new_valor } else e2) }, none)

/-- The update-commitment contract of the spec: the note absorbs the delta,
not the raw new value, and the status is re-derived in both directions. -/
def UpdateEmpenhoContract (s : DBState) (empenho_id : Nat) (v : ℚ)
    (e : Empenho) (nc : NotaCredito) : Prop :=
  (nc.saldo_disponivel + e.valor < v →
    update_empenho s empenho_id v = (s, some ApiError.saldoInsuficiente)) ∧
  (v ≤ nc.saldo_disponivel + e.valor →
    (update_empenho s empenho_id v).2 = none ∧
    findEmpenho (update_empenho s empenho_id v).1 empenho_id = some { e with valor := v } ∧
    ∃ nc', findNota (update_empenho s empenho_id v).1 e.nota_credito_id = some nc' ∧
      nc'.saldo_disponivel = nc.saldo_disponivel + e.valor - v ∧
      (nc'.status = "Totalmente Empenhada" ↔ nc'.saldo_disponivel < 1/100))

/-- Claim C7: contract of the spec-modelled `update_empenho` — for an existing
commitment and its owning note and a non-negative new value, the request is
rejected exactly when the new value exceeds the note's available balance plus
the commitment's current value; otherwise the balance absorbs the delta
(`+= current - new`), the commitment's value becomes the new value, and the
note's status is re-derived in both directions under the epsilon rule. -/
theorem update_empenho_contract (s : DBState) (empenho_id : Nat) (v : ℚ)
    (e : Empenho) (nc : NotaCredito) (hv : 0 ≤ v)
    (he : findEmpenho s empenho_id = some e)
    (hn : findNota s e.nota_credito_id = some nc) :
    UpdateEmpenhoContract s empenho_id v e nc := by
  unfold UpdateEmpenhoContract
  refine ⟨?_, ?_⟩
  · intro hlt
    simp only [update_empenho, if_neg (not_not_intro hv), he, hn, if_pos hlt]
  · intro hle
    simp only [update_empenho, if_neg (not_not_intro hv), he, hn, if_neg (not_lt.mpr hle)]
    refine ⟨trivial, ?_, ?_⟩
    · show (s.empenhos.map (fun e2 => if e2.id = empenho_id then { e2 with valor := v } else e2)).find?
          (fun e2 => e2.id == empenho_id) = _
      rw [find?_map_upd Empenho.id (fun e2 => { e2 with valor := v })
        (fun _ => rfl) empenho_id s.empenhos]
      rw [show s.empenhos.find? (fun e2 => e2.id == empenho_id) = findEmpenho s empenho_id
        from rfl, he]
      rfl
    · refine ⟨{ nc with saldo_disponivel := nc.saldo_disponivel + e.valor - v, status := if nc.saldo_disponivel + e.valor - v < 1/100 then "Totalmente Empenhada" else "Ativa" }, ?_, rfl, ?_⟩
      · show (s.notas.map (fun n => if n.id = e.nota_credito_id then { n with saldo_disponivel := nc.saldo_disponivel + e.valor - v, status := if nc.saldo_disponivel + e.valor - v < 1/100 then "Totalmente Empenhada" else "Ativa" } else n)).find?
            (fun n => n.id == e.nota_credito_id) = _
        rw [find?_map_upd NotaCredito.id
          (fun n => { n with saldo_disponivel := nc.saldo_disponivel + e.valor - v, status := if nc.saldo_disponivel + e.valor - v < 1/100 then "Totalmente Empenhada" else "Ativa" })
          (fun _ => rfl) e.nota_credito_id s.notas]
        rw [show s.notas.find? (fun n => n.id == e.nota_credito_id) = findNota s e.nota_credito_id
          from rfl, hn]
        rfl
      · by_cases hlt : nc.saldo_disponivel + e.valor - v < 1/100
        · simp only [if_pos hlt]
          exact ⟨fun _ => hlt, fun _ => trivial⟩
        · simp only [if_neg hlt]
          constructor
          · intro hx
            exact absurd hx (by decide)
          · intro hx
            exact absurd hx hlt

/-- The database reached by a 100 note and a 40 commitment: balance 60, the
setting for the update-commitment witness. -/
def c7state : DBState :=
  runOps (initState [1]) [Op.createNc (sampleNc "NC-C7" 100), Op.createEmp (sampleEmp "NE-C7" 40 0)]

/-- The commitment row of `c7state`. -/
def c7emp : Empenho :=
  { id := 1, numero_ne := "NE-C7", valor := 40, data_empenho := 0, observacao := none,
    status := none, is_fake := false, nota_credito_id := 0, secao_requisitante_id := 1 }

/-- The credit-note row of `c7state`. -/
def c7nota : NotaCredito :=
  { id := 0, numero_nc := "NC-C7", valor := 100, esfera := "Federal", fonte := "0100",
    ptres := "123456", plano_interno := "PI1", nd := "339030", data_chegada := 0,
    prazo_empenho := 30, descricao := none, secao_responsavel_id := 1,
    saldo_disponivel := 60, status := "Ativa" }

/-- Claim C7, witness: the contract instantiated at a raise of the commitment
from 40 to 70 against a balance of 60 (allowed: the note absorbs the delta). -/
theorem update_empenho_contract_witness :
    0 ≤ (70 : ℚ) ∧ findEmpenho c7state 1 = some c7emp ∧
    findNota c7state c7emp.nota_credito_id = some c7nota ∧
    UpdateEmpenhoContract c7state 1 70 c7emp c7nota := by
  have hv : 0 ≤ (70 : ℚ) := by norm_num
  have he : findEmpenho c7state 1 = some c7emp := by
    norm_num +decide [c7state, runOps, Op.step, create_nota_credito, create_empenho, initState,
      sampleNc, sampleEmp, mkNota, mkEmpenho, findNota, findEmpenho, List.find?, c7emp]
  have hn : findNota c7state c7emp.nota_credito_id = some c7nota := by
    norm_num +decide [c7state, runOps, Op.step, create_nota_credito, create_empenho, initState,
      sampleNc, sampleEmp, mkNota, mkEmpenho, findNota, findEmpenho, List.find?, c7emp, c7nota]
  exact ⟨hv, he, hn, update_empenho_contract c7state 1 70 c7emp c7nota hv he hn⟩

/-- Claim C2 (amended): the epsilon status rule — fully committed iff the
balance is below 0.01 — is established on the touched note by
`create_empenho`, and preserved by `create_recolhimento` when the note obeyed
it before; but `update_nota_credito` never touches the status (it is neither
set from the payload nor re-derived), so the rule does not survive every
mutating operation (see the counterexample). -/
theorem status_epsilon_after_debits (s : DBState) :
    (∀ r : EmpenhoCreate, (create_empenho s r).2 = none →
      ∀ nc', findNota (create_empenho s r).1 r.nota_credito_id = some nc' →
        (nc'.status = "Totalmente Empenhada" ↔ nc'.saldo_disponivel < 1/100)) ∧
    (∀ r : RecolhimentoSaldoBase, ∀ nc, findNota s r.nota_credito_id = some nc →
      (nc.status = "Totalmente Empenhada" ↔ nc.saldo_disponivel < 1/100) →
      (create_recolhimento s r).2 = none →
      ∀ nc', findNota (create_recolhimento s r).1 r.nota_credito_id = some nc' →
        (nc'.status = "Totalmente Empenhada" ↔ nc'.saldo_disponivel < 1/100)) ∧
    (∀ (nc_id : Nat) (r : NotaCreditoCreate) (nc nc' : NotaCredito),
      findNota s nc_id = some nc →
      findNota (update_nota_credito s nc_id r).1 nc_id = some nc' →
      nc'.status = nc.status) := by
  refine ⟨?_, ?_, ?_⟩
  · intro r hsucc nc' hf'
    rcases hf : findNota s r.nota_credito_id with _ | nc
    · simp only [create_empenho, hf] at hsucc
      split_ifs at hsucc <;> simp at hsucc
    · simp only [create_empenho, hf] at hsucc hf'
      split_ifs at hsucc hf' with h1 h2 h3 h4 h5
      all_goals try simp at hsucc
      · simp only [findNota] at hf'
        rw [find?_map_upd NotaCredito.id
          (fun n => { n with saldo_disponivel := 0, status := "Totalmente Empenhada" })
          (fun _ => rfl) r.nota_credito_id s.notas] at hf'
        rw [show s.notas.find? (fun n => n.id == r.nota_credito_id)
          = findNota s r.nota_credito_id from rfl, hf] at hf'
        simp only [Option.map_some'] at hf'
        injection hf' with h
        rw [← h]
        exact ⟨fun _ => by norm_num, fun _ => rfl⟩
      · simp only [findNota] at hf'
        rw [find?_map_upd NotaCredito.id
          (fun n => { n with saldo_disponivel := nc.saldo_disponivel - r.valor })
          (fun _ => rfl) r.nota_credito_id s.notas] at hf'
        rw [show s.notas.find? (fun n => n.id == r.nota_credito_id)
          = findNota s r.nota_credito_id from rfl, hf] at hf'
        simp only [Option.map_some'] at hf'
        injection hf' with h
        rw [← h]
        constructor
        · intro hx
          rw [show ({ nc with saldo_disponivel := nc.saldo_disponivel - r.valor }
            : NotaCredito).status = nc.status from rfl, h2] at hx
          exact absurd hx (by decide)
        · intro hx
          exact absurd hx h5
  · intro r nc hf hok hsucc nc' hf'
    simp only [create_recolhimento, hf] at hsucc hf'
    split_ifs at hsucc hf' with h1 h2 h3
    all_goals try simp at hsucc
    · simp only [findNota] at hf'
      rw [find?_map_upd NotaCredito.id
        (fun n => { n with saldo_disponivel := 0, status := "Totalmente Empenhada" })
        (fun _ => rfl) r.nota_credito_id s.notas] at hf'
      rw [show s.notas.find? (fun n => n.id == r.nota_credito_id)
        = findNota s r.nota_credito_id from rfl, hf] at hf'
      simp only [Option.map_some'] at hf'
      injection hf' with h
      rw [← h]
      exact ⟨fun _ => by norm_num, fun _ => rfl⟩
    · simp only [findNota] at hf'
      rw [find?_map_upd NotaCredito.id
        (fun n => { n with saldo_disponivel := nc.saldo_disponivel - r.valor })
        (fun _ => rfl) r.nota_credito_id s.notas] at hf'
      rw [show s.notas.find? (fun n => n.id == r.nota_credito_id)
        = findNota s r.nota_credito_id from rfl, hf] at hf'
      simp only [Option.map_some'] at hf'
      injection hf' with h
      rw [← h]
      constructor
      · intro hx
        have hsmall := hok.mp hx
        have : ¬ nc.saldo_disponivel < 1/100 := by linarith
        exact absurd hsmall this
      · intro hx
        exact absurd hx h3
  · intro nc_id r nc nc' hf hf'
    by_cases h1 : ¬ 0 < r.valor
    · simp only [update_nota_credito, if_pos h1] at hf'
      have hx : findNota s nc_id = some nc' := hf'
      rw [hf] at hx
      injection hx with h
      rw [← h]
    · simp only [update_nota_credito, if_neg h1, hf] at hf'
      split_ifs at hf' with h2 h3
      · have hx : findNota s nc_id = some nc' := hf'
        rw [hf] at hx
        injection hx with h
        rw [← h]
      · simp only [findNota] at hf'
        rw [find?_map_upd NotaCredito.id
          (setNotaFields r (r.valor - (nc.valor - nc.saldo_disponivel)))
          (fun _ => rfl) nc_id s.notas] at hf'
        rw [show s.notas.find? (fun n => n.id == nc_id) = findNota s nc_id from rfl, hf] at hf'
        simp only [Option.map_some'] at hf'
        injection hf' with h
        rw [← h]
        rfl
      · have hx : findNota s nc_id = some nc' := hf'
        rw [hf] at hx
        injection hx with h
        rw [← h]

/-- A one-note database for the status-rule witness. -/
def c2wstate : DBState :=
  (create_nota_credito (initState [1]) (sampleNc "NC-C2" 100)).1

/-- The credit-note row after fully committing `c2wstate`'s note. -/
def c2nota : NotaCredito :=
  { id := 0, numero_nc := "NC-C2", valor := 100, esfera := "Federal", fonte := "0100",
    ptres := "123456", plano_interno := "PI1", nd := "339030", data_chegada := 0,
    prazo_empenho := 30, descricao := none, secao_responsavel_id := 1,
    saldo_disponivel := 0, status := "Totalmente Empenhada" }

/-- Claim C2, witness: fully committing a 100 note leaves it satisfying the
epsilon status rule. -/
theorem status_epsilon_after_debits_witness :
    (create_empenho c2wstate (sampleEmp "NE-C2" 100 0)).2 = none ∧
    findNota (create_empenho c2wstate (sampleEmp "NE-C2" 100 0)).1
      (sampleEmp "NE-C2" 100 0).nota_credito_id = some c2nota ∧
    (c2nota.status = "Totalmente Empenhada" ↔ c2nota.saldo_disponivel < 1/100) := by
  have h1 : (create_empenho c2wstate (sampleEmp "NE-C2" 100 0)).2 = none := by
    norm_num +decide [c2wstate, create_nota_credito, create_empenho, initState, sampleNc,
      sampleEmp, mkNota, mkEmpenho, findNota, List.find?]
  have h2 : findNota (create_empenho c2wstate (sampleEmp "NE-C2" 100 0)).1
      (sampleEmp "NE-C2" 100 0).nota_credito_id = some c2nota := by
    norm_num +decide [c2wstate, create_nota_credito, create_empenho, initState, sampleNc,
      sampleEmp, mkNota, mkEmpenho, findNota, List.find?, c2nota]
  exact ⟨h1, h2, (status_epsilon_after_debits c2wstate).1 (sampleEmp "NE-C2" 100 0) h1 c2nota h2⟩

/-- The database reached by fully committing a 100 note and then raising its
total to 200: the update leaves the status fully committed while the balance
is 100. -/
def c2state : DBState :=
  runOps (initState [1]) [Op.createNc (sampleNc "NC-Z" 100), Op.createEmp (sampleEmp "NE-Z" 100 0),
    Op.updateNc 0 (sampleNc "NC-Z" 200)]

/-- Claim C2, counterexample to the claim as stated: after the credit-note
update, a note reads fully committed with a balance of 100 — the biconditional
between the status and the epsilon rule is violated by a reachable state. -/
theorem status_iff_fails_after_update :
    ¬ ∀ nc ∈ c2state.notas,
      (nc.status = "Totalmente Empenhada" ↔ nc.saldo_disponivel < 1/100) := by
  norm_num +decide [c2state, runOps, Op.step, create_nota_credito, create_empenho,
    update_nota_credito, initState, sampleNc, sampleEmp, mkNota, mkEmpenho, setNotaFields,
    findNota, List.find?]
